import Mathlib

/-!
Verification of the screenshot compositing pipeline in
`scripts/screenshots/composite.py` (with `generate_backgrounds.py` as a
collaborator that only writes per-screenshot files `{id}.png`).

Shallow embedding conventions:
* A PIL `Image` in RGBA mode is a `Canvas`: fixed width/height and a total
  pixel function on integer coordinates; only coordinates with
  `0 ≤ x < width`, `0 ≤ y < height` are meaningful, and every drawing
  operation clips its writes to that region, as PIL does.
* Python float arithmetic is idealised as exact rational arithmetic, and
  `int(...)` as floor (all values truncated in the code are nonnegative,
  so truncation and floor agree).
* Library raster primitives whose pixel-level output the code does not
  control (LANCZOS resampling, Gaussian blur, font rasterisation, float
  square root) are parameters, bundled in `Prims` together with the
  properties PIL guarantees for them (exact output size; blur never
  exceeds the largest input alpha).
* The module-level mutable background cache `_bg_cache` is modelled with an
  explicit heap (`BgState`): Python object identities are references into a
  store, `Image.copy()` allocates a fresh cell, and caller-side mutation is
  an explicit store update.  Fallible code returns `Except`.
-/

namespace Breach

/-- One RGBA pixel; channels are byte values 0..255. -/
structure Pixel where
  r : Nat
  g : Nat
  b : Nat
  a : Nat
deriving DecidableEq, Repr

/-- The fully transparent black pixel, the initial content of
`Image.new("RGBA", (w, h))`. -/
def Pixel.clear : Pixel := ⟨0, 0, 0, 0⟩

/-- An RGBA raster buffer (PIL `Image` in mode RGBA). -/
structure Canvas where
  width : Nat
  height : Nat
  pix : Int → Int → Pixel

/-- `Image.new("RGBA", (w, h))`: a transparent canvas. -/
def newCanvas (w h : Nat) : Canvas := ⟨w, h, fun _ _ => Pixel.clear⟩

/-- `Image.new("RGBA", (w, h), color)`: a solid-color canvas. -/
def solidCanvas (w h : Nat) (p : Pixel) : Canvas := ⟨w, h, fun _ _ => p⟩

/-- Whether integer coordinates address a real pixel of the canvas. -/
def Canvas.inB (c : Canvas) (x y : Int) : Prop :=
  0 ≤ x ∧ x < (c.width : Int) ∧ 0 ≤ y ∧ y < (c.height : Int)

instance (c : Canvas) (x y : Int) : Decidable (c.inB x y) := by
  unfold Canvas.inB; infer_instance

/-- Pixel-level equality of two canvases: same size and the same pixel at
every in-bounds coordinate. -/
def pixEq (c d : Canvas) : Prop :=
  c.width = d.width ∧ c.height = d.height ∧
  ∀ x y : Int, c.inB x y → c.pix x y = d.pix x y

/-- One band of PIL's `paste` blend with a mask value `m`:
`(fg·m + bg·(255−m)) div 255`. -/
def blendBand (fg bg m : Nat) : Nat := (fg * m + bg * (255 - m)) / 255

/-- `base.paste(img, (px, py))` without a mask: the pasted region is
replaced outright (clipped to the base canvas). -/
def pasteNoMask (base img : Canvas) (px py : Int) : Canvas :=
  ⟨base.width, base.height, fun X Y =>
    if 0 ≤ X - px ∧ X - px < (img.width : Int) ∧
        0 ≤ Y - py ∧ Y - py < (img.height : Int) ∧ base.inB X Y then
      img.pix (X - px) (Y - py)
    else base.pix X Y⟩

/-- `base.paste(img, (px, py), img)`: paste using the image's own alpha
band as the mask, each band blended by `blendBand`. -/
def pasteWithImgMask (base img : Canvas) (px py : Int) : Canvas :=
  ⟨base.width, base.height, fun X Y =>
    if 0 ≤ X - px ∧ X - px < (img.width : Int) ∧
        0 ≤ Y - py ∧ Y - py < (img.height : Int) ∧ base.inB X Y then
      let f := img.pix (X - px) (Y - py)
      let b := base.pix X Y
      let m := f.a
      ⟨blendBand f.r b.r m, blendBand f.g b.g m,
       blendBand f.b b.b m, blendBand f.a b.a m⟩
    else base.pix X Y⟩

/-- `Image.alpha_composite(bot, top)`: Porter-Duff "over" with 8-bit
integer arithmetic.  PIL requires both images to have the same size; a
size mismatch is modelled by the degenerate empty canvas. -/
def alphaComposite (bot top : Canvas) : Canvas :=
  if bot.width = top.width ∧ bot.height = top.height then
    ⟨bot.width, bot.height, fun X Y =>
      if bot.inB X Y then
        let f := top.pix X Y
        let b := bot.pix X Y
        let w := b.a * (255 - f.a) / 255
        let outA := f.a + w
        if outA = 0 then Pixel.clear
        else ⟨(f.r * f.a + b.r * w) / outA, (f.g * f.a + b.g * w) / outA,
              (f.b * f.a + b.b * w) / outA, outA⟩
      else bot.pix X Y⟩
  else newCanvas 0 0

/-- `draw.line([(0, y), (w, y)], fill=p)`: overwrite one full row
(clipped to the canvas). -/
def drawHLine (c : Canvas) (y : Int) (p : Pixel) : Canvas :=
  ⟨c.width, c.height, fun X Y =>
    if Y = y ∧ c.inB X Y then p else c.pix X Y⟩

/-- `draw.rectangle([(x0, y0), (x1, y1)], fill=p)`: PIL rectangles include
both corner coordinates; writes are clipped to the canvas. -/
def fillRect (c : Canvas) (x0 y0 x1 y1 : Int) (p : Pixel) : Canvas :=
  ⟨c.width, c.height, fun X Y =>
    if x0 ≤ X ∧ X ≤ x1 ∧ y0 ≤ Y ∧ Y ≤ y1 ∧ c.inB X Y then p
    else c.pix X Y⟩

/-- `draw.ellipse([cx−rx, cy−ry, cx+rx, cy+ry], fill=p)`: a filled axis
aligned ellipse, membership taken as the real inequality
`((X−cx)/rx)² + ((Y−cy)/ry)² ≤ 1`, cleared of denominators. -/
def fillEllipse (c : Canvas) (cx cy : Int) (rx ry : Nat) (p : Pixel) : Canvas :=
  ⟨c.width, c.height, fun X Y =>
    if (X - cx) ^ 2 * (ry : Int) ^ 2 + (Y - cy) ^ 2 * (rx : Int) ^ 2
          ≤ (rx : Int) ^ 2 * (ry : Int) ^ 2 ∧ c.inB X Y then p
    else c.pix X Y⟩

/-- `canvas.convert("RGB")`: drop the alpha band (the flattened export). -/
def flattenRGB (c : Canvas) : Canvas :=
  ⟨c.width, c.height, fun X Y =>
    let p := c.pix X Y
    ⟨p.r, p.g, p.b, 255⟩⟩

/-- The imaging-library primitives the script calls but does not define:
LANCZOS resampling, Gaussian blur, text rasterisation (the resolved font
is determined by the requested pixel size), and float square root.  The
bundled laws are facts PIL guarantees: `resize` returns exactly the
requested size, a filter preserves the image size, and Gaussian blur (a
convex combination of in-bounds samples) never exceeds the largest alpha
present in its input. -/
structure Prims where
  resize : Nat → Nat → Canvas → Canvas
  blur : Nat → Canvas → Canvas
  drawText : Canvas → String → Int × Int → Pixel → Nat → Canvas
  sqrtQ : ℚ → ℚ
  resize_width : ∀ w h c, (resize w h c).width = w
  resize_height : ∀ w h c, (resize w h c).height = h
  blur_width : ∀ r c, (blur r c).width = c.width
  blur_height : ∀ r c, (blur r c).height = c.height
  blur_alpha_le : ∀ r c M, (∀ x y : Int, c.inB x y → (c.pix x y).a ≤ M) →
    ∀ x y : Int, (blur r c).inB x y → ((blur r c).pix x y).a ≤ M
  text_width : ∀ c s p col sz, (drawText c s p col sz).width = c.width
  text_height : ∀ c s p col sz, (drawText c s p col sz).height = c.height

/-- A concrete instantiation of the library primitives, used to evaluate
the pipeline on explicit inputs: nearest-sample resize, identity blur,
text drawing that leaves the canvas unchanged. -/
def idPrims : Prims where
  resize := fun w h c => ⟨w, h, c.pix⟩
  blur := fun _ c => c
  drawText := fun c _ _ _ _ => c
  sqrtQ := fun q => q
  resize_width := fun _ _ _ => rfl
  resize_height := fun _ _ _ => rfl
  blur_width := fun _ _ => rfl
  blur_height := fun _ _ => rfl
  blur_alpha_le := fun _ _ _ hM x y hin => hM x y hin
  text_width := fun _ _ _ _ _ => rfl
  text_height := fun _ _ _ _ _ => rfl

/-! ## Configuration and file environment (`config.json`, `raw/`, `backgrounds/`) -/

/-- One entry of `config["screenshots"]`; the accent color is the RGB
triple produced by `hex_to_rgb` from the 6-hex-digit accent string. -/
structure ScreenshotSpec where
  id : String
  title : String
  subtitle : String
  accent : Nat × Nat × Nat

/-- `config["layout"]`: the named ratios and pixel offsets shared by all
screenshots and devices. -/
structure Layout where
  phone_scale : ℚ
  corner_radius : Nat
  shadow_offset : Nat
  shadow_blur : Nat
  phone_y_offset : ℚ
  title_y : ℚ
  subtitle_y : ℚ
  glow_radius : Nat

/-- The parsed `config.json`: devices as `(key, width, height)`,
layout, screenshot specs, and the fallback gradient colors (already run
through `hex_to_rgb`). -/
structure Config where
  devices : List (String × Nat × Nat)
  layout : Layout
  screenshots : List ScreenshotSpec
  gradientTop : Nat × Nat × Nat
  gradientBottom : Nat × Nat × Nat

/-- State of a raw capture file in `raw/`. -/
inductive RawFile where
  | missing
  | undecodable
  | image (img : Canvas)

/-- The file system the script reads: raw captures by file name, and the
contents of `backgrounds/` by file name. -/
structure Env where
  raw : String → RawFile
  bgFiles : String → Option Canvas

/-- The name of the single shared background asset the compositor loads. -/
def bgAssetName : String := "background.png"

/-- File-name fragments used to key raw captures and outputs. -/
def underscoreStr : String := "_"

/-- Extension of raw capture and output files. -/
def pngStr : String := ".png"

/-- `f"{screen_id}_{device_key}.png"`. -/
def rawFileName (screenId deviceKey : String) : String :=
  screenId ++ underscoreStr ++ deviceKey ++ pngStr

/-! ## Background resolver (`create_background`) with its module cache

`_bg_cache` stores Python object references; `bg.copy()` allocates a
fresh object.  `BgState.store` is the heap (a reference is an index) and
`BgState.cache` is the dictionary from `(width, height)` to the
reference of the cached background. -/

/-- Dictionary lookup in the association list backing `_bg_cache`. -/
def cacheLookup : List ((Nat × Nat) × Nat) → Nat × Nat → Option Nat
  | [], _ => none
  | (k, r) :: rest, key => if k = key then some r else cacheLookup rest key

/-- Read a heap cell (out-of-range references read as an empty canvas;
they never arise). -/
def storeGet : List Canvas → Nat → Canvas
  | [], _ => newCanvas 0 0
  | c :: _, 0 => c
  | _ :: rest, n + 1 => storeGet rest n

/-- Overwrite a heap cell in place. -/
def storeSet : List Canvas → Nat → Canvas → List Canvas
  | [], _, _ => []
  | _ :: rest, 0, c => c :: rest
  | d :: rest, n + 1, c => d :: storeSet rest n c

/-- Heap plus cache dictionary backing `_bg_cache`. -/
structure BgState where
  store : List Canvas
  cache : List ((Nat × Nat) × Nat)

/-- State at interpreter start: empty heap, empty cache. -/
def BgState.empty : BgState := ⟨[], []⟩

/-- Every cached reference points into the heap; holds at start and is
preserved by the resolver. -/
def BgState.wf (st : BgState) : Prop :=
  ∀ p ∈ st.cache, p.2 < st.store.length

instance (st : BgState) : Decidable st.wf := by
  unfold BgState.wf; infer_instance

/-- Allocate a fresh heap cell holding canvas `c`; returns its reference. -/
def allocRef (st : BgState) (c : Canvas) : Nat × BgState :=
  (st.store.length, ⟨st.store ++ [c], st.cache⟩)

/-- Dereference a heap cell. -/
def getRef (st : BgState) (r : Nat) : Canvas :=
  storeGet st.store r

/-- In-place mutation of the object behind reference `r` (what a caller
could do to the canvas `create_background` returned to it). -/
def mutateRef (st : BgState) (r : Nat) (c : Canvas) : BgState :=
  ⟨storeSet st.store r c, st.cache⟩

/-- Which branch of `create_background` produced the result. -/
inductive BgSource where
  | cacheHit
  | assetResized
  | gradientDrawn
deriving DecidableEq, Repr

/-- One color channel of a gradient row:
`int(top + (bottom - top) * ratio)` with `ratio = y / height`. -/
def gradChan (t b y h : Nat) : Nat :=
  (Int.floor ((t : ℚ) + ((b : ℚ) - (t : ℚ)) * ((y : ℚ) / (h : ℚ)))).toNat

/-- The fully opaque pixel drawn across gradient row `y`. -/
def gradPixel (cfg : Config) (h y : Nat) : Pixel :=
  ⟨gradChan cfg.gradientTop.1 cfg.gradientBottom.1 y h,
   gradChan cfg.gradientTop.2.1 cfg.gradientBottom.2.1 y h,
   gradChan cfg.gradientTop.2.2 cfg.gradientBottom.2.2 y h, 255⟩

/-- The gradient fallback: start from a transparent canvas and draw one
full-width line per row, top to bottom. -/
def gradientCanvas (w h : Nat) (cfg : Config) : Canvas :=
  (List.range h).foldl
    (fun c y => drawHLine c (Int.ofNat y) (gradPixel cfg h y)) (newCanvas w h)

/-- `create_background(width, height, config)`: return a copy of the
cached background for `(width, height)` if present; otherwise load and
LANCZOS-resize the shared `backgrounds/background.png` if it exists, else
synthesize the gradient; cache the new background and return a copy of
it.  The `BgSource` component records which branch ran. -/
def createBackground (P : Prims) (env : Env) (cfg : Config) (w h : Nat)
    (st : BgState) : Nat × BgState × BgSource :=
  match cacheLookup st.cache (w, h) with
  | some r =>
      let c := allocRef st (getRef st r)
      (c.1, c.2, .cacheHit)
  | none =>
    match env.bgFiles bgAssetName with
    | some asset =>
        let bg := P.resize w h asset
        let a1 := allocRef st bg
        let st1 : BgState := ⟨a1.2.store, ((w, h), a1.1) :: a1.2.cache⟩
        let a2 := allocRef st1 (getRef st1 a1.1)
        (a2.1, a2.2, .assetResized)
    | none =>
        let bg := gradientCanvas w h cfg
        let a1 := allocRef st bg
        let st1 : BgState := ⟨a1.2.store, ((w, h), a1.1) :: a1.2.cache⟩
        let a2 := allocRef st1 (getRef st1 a1.1)
        (a2.1, a2.2, .gradientDrawn)

/-! ## Effect layers -/

/-- Alpha of the bottom-up vignette gradient at row `y`:
`t = max(0, (y - h*0.4) / (h*0.6))`, `alpha = int(255*opacity*t*t)`. -/
def vignetteAlpha (opacity : ℚ) (h y : Nat) : Nat :=
  let t : ℚ := max 0 (((y : ℚ) - (h : ℚ) * ((2 : ℚ)/5)) / ((h : ℚ) * ((3 : ℚ)/5)))
  (Int.floor (255 * opacity * t * t)).toNat

/-- The bottom-gradient alpha exactly as the specification words it
(for comparison with `vignetteAlpha`): `t = clamp((y − 0.4·h)/(0.6·h),
0, 1)`, `alpha = 255·opacity·t²`. -/
def vignetteAlphaClaim (opacity : ℚ) (h y : Nat) : Nat :=
  let t : ℚ :=
    min 1 (max 0 (((y : ℚ) - (2 : ℚ)/5 * (h : ℚ)) / ((3 : ℚ)/5 * (h : ℚ))))
  (Int.floor (255 * opacity * t * t)).toNat

/-- The bottom-gradient vignette layer: one accent-colored line per row. -/
def vignetteBottomLayer (w h : Nat) (accent : Nat × Nat × Nat)
    (opacity : ℚ) : Canvas :=
  (List.range h).foldl
    (fun c y => drawHLine c (Int.ofNat y)
      ⟨accent.1, accent.2.1, accent.2.2, vignetteAlpha opacity h y⟩)
    (newCanvas w h)

/-- The start offsets `0, step, 2·step, …` of Python's `range(0, n, step)`
(for positive `step`). -/
def stepStarts (n step : Nat) : List Nat :=
  (List.range ((n + step - 1) / step)).map (fun k => step * k)

/-- Alpha of the corner/edge vignette at block origin `(x, y)`:
normalized center distance through the library square root, ramp from
60% outward, `alpha = int(255*opacity*0.5*t*t)`. -/
def edgeAlpha (P : Prims) (opacity : ℚ) (w h x y : Nat) : Nat :=
  let cx : ℚ := (w : ℚ) / 2
  let cy : ℚ := (h : ℚ) / 2
  let dx : ℚ := |(x : ℚ) - cx| / cx
  let dy : ℚ := |(y : ℚ) - cy| / cy
  let dist : ℚ := P.sqrtQ (dx * dx + dy * dy)
  let t : ℚ := min 1 (max 0 ((dist - (3 : ℚ)/5) / ((2 : ℚ)/5)))
  (Int.floor (255 * opacity * ((1 : ℚ)/2) * t * t)).toNat

/-- The corner/edge vignette layer, drawn in 4x4 blocks, skipping blocks
whose alpha is zero. -/
def edgeLayer (P : Prims) (w h : Nat) (accent : Nat × Nat × Nat)
    (opacity : ℚ) : Canvas :=
  (stepStarts h 4).foldl
    (fun cRow y =>
      (stepStarts w 4).foldl
        (fun c x =>
          let al := edgeAlpha P opacity w h x y
          if 0 < al then
            fillRect c (Int.ofNat x) (Int.ofNat y)
              (Int.ofNat x + 3) (Int.ofNat y + 3)
              ⟨accent.1, accent.2.1, accent.2.2, al⟩
          else c)
        cRow)
    (newCanvas w h)

/-- `apply_accent_vignette(canvas, accent, opacity=0.18)`: composite the
bottom gradient, then the corner/edge layer, over the canvas. -/
def applyAccentVignette (P : Prims) (canvas : Canvas)
    (accent : Nat × Nat × Nat) (opacity : ℚ) : Canvas :=
  let w := canvas.width
  let h := canvas.height
  alphaComposite (alphaComposite canvas (vignetteBottomLayer w h accent opacity))
    (edgeLayer P w h accent opacity)

/-- `apply_scan_lines(canvas, opacity=0.10, spacing=4)`: black lines of
constant alpha `int(255*opacity)` every `spacing` rows, composited over
the canvas. -/
def applyScanLines (canvas : Canvas) (opacity : ℚ) (spacing : Nat) : Canvas :=
  let w := canvas.width
  let h := canvas.height
  let al := (Int.floor (255 * opacity)).toNat
  let scan := (stepStarts h spacing).foldl
    (fun c y => drawHLine c (Int.ofNat y) ⟨0, 0, 0, al⟩) (newCanvas w h)
  alphaComposite canvas scan

/-- Radius of glow ring `i` for outer radius `base`:
`int(base * (1.0 - i/steps))` with `steps = 80`. -/
def ringRadius (base i : Nat) : Nat := base * (80 - i) / 80

/-- Alpha of glow ring `i`: `int(255 * 0.40 * (i/80)²) = ⌊51·i²/3200⌋`. -/
def ringAlpha (i : Nat) : Nat := 51 * i * i / 3200

/-- The pre-blur glow layer: 80 concentric filled ellipses centered on
the middle of `rect = (px, py, pw, ph)`, outermost first, each painted
over the previous ones; rings whose radius collapses below 1 are
skipped. -/
def glowLayer (w h : Nat) (accent : Nat × Nat × Nat)
    (rect : Int × Int × Nat × Nat) : Canvas :=
  let cx : Int := rect.1 + (rect.2.2.1 / 2 : Nat)
  let cy : Int := rect.2.1 + (rect.2.2.2 / 2 : Nat)
  let grx : Nat := rect.2.2.1 * 9 / 10
  let gry : Nat := rect.2.2.2 * 7 / 10
  (List.range 80).foldl
    (fun c i =>
      let rx := ringRadius grx i
      let ry := ringRadius gry i
      if rx < 1 ∨ ry < 1 then c
      else fillEllipse c cx cy rx ry
        ⟨accent.1, accent.2.1, accent.2.2, ringAlpha i⟩)
    (newCanvas w h)

/-- `apply_accent_glow(canvas, accent, phone_rect)`: paint the ring
layer, Gaussian-blur it with radius 60, composite it over the canvas. -/
def applyAccentGlow (P : Prims) (canvas : Canvas)
    (accent : Nat × Nat × Nat) (rect : Int × Int × Nat × Nat) : Canvas :=
  alphaComposite canvas
    (P.blur 60 (glowLayer canvas.width canvas.height accent rect))

/-! ## Subject processor -/

/-- Membership in the filled rounded rectangle
`draw.rounded_rectangle([(0, 0), (w, h)], radius=r, fill=255)` drawn on a
`w x h` mask: the cross of the two side-inset bands plus the four
quarter discs. -/
def inRoundedRect (w h r : Nat) (x y : Int) : Bool :=
  if x < 0 ∨ (w : Int) ≤ x ∨ y < 0 ∨ (h : Int) ≤ y then false
  else if ((r : Int) ≤ x ∧ x ≤ (w : Int) - r) ∨
      ((r : Int) ≤ y ∧ y ≤ (h : Int) - r) then true
  else
    let cx : Int := if x < (r : Int) then r else (w : Int) - r
    let cy : Int := if y < (r : Int) then r else (h : Int) - r
    decide ((x - cx) ^ 2 + (y - cy) ^ 2 ≤ (r : Int) ^ 2)

/-- `add_rounded_corners(img, radius)`: build the rounded-rectangle mask
and install it as the image's alpha band via `putalpha`. -/
def addRoundedCorners (img : Canvas) (radius : Nat) : Canvas :=
  ⟨img.width, img.height, fun X Y =>
    let p := img.pix X Y
    ⟨p.r, p.g, p.b,
     if inRoundedRect img.width img.height radius X Y then 255 else 0⟩⟩

/-- `add_drop_shadow(img, offset, blur)`: allocate a canvas padded by
`2·blur` per side, paste a solid black alpha-120 layer offset by
`(offset, offset)` from the padding origin, blur it, then paste the
image (masked by its own alpha) at the padding origin. -/
def addDropShadow (P : Prims) (img : Canvas) (offset blur : Nat) : Canvas :=
  let sw := img.width + blur * 4
  let sh := img.height + blur * 4
  let shadowBase := newCanvas sw sh
  let shadowLayer := solidCanvas img.width img.height ⟨0, 0, 0, 120⟩
  let pX : Int := (blur : Int) * 2 + (offset : Int)
  let s1 := pasteNoMask shadowBase shadowLayer pX pX
  let s2 := P.blur blur s1
  pasteWithImgMask s2 img ((blur : Int) * 2) ((blur : Int) * 2)

/-! ## Glow text -/

/-- `render_glow_text(canvas, text, position, color, font, glow_radius)`:
draw the text at alpha 180 on a transparent layer, blur it, composite it
over the canvas, then draw the crisp text on top.  The font is
represented by its requested pixel size. -/
def renderGlowText (P : Prims) (canvas : Canvas) (text : String)
    (pos : Int × Int) (color : Nat × Nat × Nat)
    (fontSize glowRadius : Nat) : Canvas :=
  let glow := P.drawText (newCanvas canvas.width canvas.height) text pos
    ⟨color.1, color.2.1, color.2.2, 180⟩ fontSize
  let glowBlurred := P.blur glowRadius glow
  let c2 := alphaComposite canvas glowBlurred
  P.drawText c2 text pos ⟨color.1, color.2.1, color.2.2, 255⟩ fontSize

/-! ## Compositor (`composite_screenshot` and `main`) -/

/-- `phone_w = int(width * phone_scale)`. -/
def phoneW (width : Nat) (L : Layout) : Nat :=
  (Int.floor ((width : ℚ) * L.phone_scale)).toNat

/-- `phone_h = int(raw.height * (phone_w / raw.width))`. -/
def phoneH (raw : Canvas) (pw : Nat) : Nat :=
  (Int.floor ((raw.height : ℚ) * ((pw : ℚ) / (raw.width : ℚ)))).toNat

/-- `raw_scaled = raw.resize((phone_w, phone_h), LANCZOS)`. -/
def phoneScaled (P : Prims) (raw : Canvas) (width : Nat) (L : Layout) : Canvas :=
  P.resize (phoneW width L) (phoneH raw (phoneW width L)) raw

/-- `corner_radius = int(layout["corner_radius"] * phone_scale)`. -/
def cornerRad (L : Layout) : Nat :=
  (Int.floor ((L.corner_radius : ℚ) * L.phone_scale)).toNat

/-- `raw_rounded = add_rounded_corners(raw_scaled, corner_radius)`. -/
def phoneRounded (P : Prims) (raw : Canvas) (width : Nat) (L : Layout) : Canvas :=
  addRoundedCorners (phoneScaled P raw width L) (cornerRad L)

/-- `phone_with_shadow = add_drop_shadow(raw_rounded, shadow_offset,
shadow_blur)`. -/
def phoneShadowed (P : Prims) (raw : Canvas) (width : Nat) (L : Layout) : Canvas :=
  addDropShadow P (phoneRounded P raw width L) L.shadow_offset L.shadow_blur

/-- `phone_x = (width - phone_with_shadow.width) // 2` (Python floor
division on a possibly negative difference). -/
def phoneX (width : Nat) (P : Prims) (raw : Canvas) (L : Layout) : Int :=
  ((width : Int) - ((phoneShadowed P raw width L).width : Int)).fdiv 2

/-- `phone_y = int(height * phone_y_offset)`. -/
def phoneY (height : Nat) (L : Layout) : Int :=
  Int.floor ((height : ℚ) * L.phone_y_offset)

/-- `phone_rect = (phone_x + shadow_blur*2, phone_y + shadow_blur*2,
phone_w, phone_h)`: the rectangle handed to the accent glow. -/
def phoneRect (P : Prims) (raw : Canvas) (width height : Nat)
    (L : Layout) : Int × Int × Nat × Nat :=
  (phoneX width P raw L + (L.shadow_blur : Int) * 2,
   phoneY height L + (L.shadow_blur : Int) * 2,
   phoneW width L, phoneH raw (phoneW width L))

/-- `int(width * 0.065)`, the title font size. -/
def titleFontSize (width : Nat) : Nat :=
  (Int.floor ((width : ℚ) * ((65 : ℚ) / 1000))).toNat

/-- `int(width * 0.035)`, the subtitle font size. -/
def subtitleFontSize (width : Nat) : Nat :=
  (Int.floor ((width : ℚ) * ((35 : ℚ) / 1000))).toNat

/-- The error raised by `Image.open` on an existing but undecodable
file; the script does not catch it. -/
inductive DecodeErr where
  | decodeFailed
deriving DecidableEq, Repr

/-- Per-pair result: `[SKIP]` (missing raw capture, no output written) or
`[OK]` with the flattened canvas written to the output file. -/
inductive Outcome where
  | skipped
  | composited (out : Canvas)

/-- `composite_screenshot(screenshot_cfg, device_key, config)` for the
device profile `(w, h)`: skip if the raw capture is absent; raise if it
cannot be decoded; otherwise resolve the background through the cache
and stack vignette, scan lines, glow, subject paste and the two glow
texts, exporting the flattened result. -/
def compositeScreenshot (P : Prims) (env : Env) (cfg : Config)
    (sc : ScreenshotSpec) (deviceKey : String) (w h : Nat)
    (st : BgState) : Except DecodeErr (Outcome × BgState) :=
  match env.raw (rawFileName sc.id deviceKey) with
  | .missing => .ok (.skipped, st)
  | .undecodable => .error .decodeFailed
  | .image raw =>
    let bgRes := createBackground P env cfg w h st
    let canvas0 := getRef bgRes.2.1 bgRes.1
    let accent := sc.accent
    let c1 := applyAccentVignette P canvas0 accent ((18 : ℚ) / 100)
    let c2 := applyScanLines c1 ((1 : ℚ) / 10) 4
    let withShadow := phoneShadowed P raw w cfg.layout
    let c3 := applyAccentGlow P c2 accent (phoneRect P raw w h cfg.layout)
    let c4 := pasteWithImgMask c3 withShadow (phoneX w P raw cfg.layout)
      (phoneY h cfg.layout)
    let c5 := renderGlowText P c4 sc.title
      (((w / 2 : Nat) : Int), Int.floor ((h : ℚ) * cfg.layout.title_y))
      accent (titleFontSize w) cfg.layout.glow_radius
    let c6 := renderGlowText P c5 sc.subtitle
      (((w / 2 : Nat) : Int), Int.floor ((h : ℚ) * cfg.layout.subtitle_y))
      (255, 255, 255) (subtitleFontSize w) (cfg.layout.glow_radius / 2)
    .ok (.composited (flattenRGB c6), bgRes.2.1)

/-- The `(screenshot, device)` pairs `main` iterates over, in iteration
order: screenshots outer, devices inner. -/
def allPairs (cfg : Config) : List (ScreenshotSpec × String × Nat × Nat) :=
  cfg.screenshots.flatMap
    (fun sc => cfg.devices.map (fun d => (sc, d.1, d.2.1, d.2.2)))

/-- The raw capture file name of a pair. -/
def pairRawName (pr : ScreenshotSpec × String × Nat × Nat) : String :=
  rawFileName pr.1.id pr.2.1

/-- Process a list of pairs in order, threading the background cache; an
uncaught decode error aborts the remainder of the run, as the script has
no exception handler around `composite_screenshot`. -/
def runPairs (P : Prims) (env : Env) (cfg : Config) :
    List (ScreenshotSpec × String × Nat × Nat) → BgState →
    Except DecodeErr (List ((String × String) × Outcome))
  | [], _ => .ok []
  | pr :: rest, st =>
    match compositeScreenshot P env cfg pr.1 pr.2.1 pr.2.2.1 pr.2.2.2 st with
    | .error e => .error e
    | .ok (o, st1) =>
      match runPairs P env cfg rest st1 with
      | .error e => .error e
      | .ok l => .ok (((pr.1.id, pr.2.1), o) :: l)

/-- `main()`: composite every `(screenshot, device)` pair, starting from
an empty background cache, reporting one outcome per processed pair. -/
def mainRun (P : Prims) (env : Env) (cfg : Config) :
    Except DecodeErr (List ((String × String) × Outcome)) :=
  runPairs P env cfg (allPairs cfg) BgState.empty

/-- The final-canvas region where the un-padded rounded subject is
actually visible: inside the canvas, inside the pasted
`phone_with_shadow` region, and carrying full (255) paste-mask alpha
there. -/
def coveredBySubject (P : Prims) (raw : Canvas) (w h : Nat) (L : Layout)
    (X Y : Int) : Prop :=
  let pws := phoneShadowed P raw w L
  let lx := X - phoneX w P raw L
  let ly := Y - phoneY h L
  (0 ≤ X ∧ X < (w : Int) ∧ 0 ≤ Y ∧ Y < (h : Int)) ∧
  (0 ≤ lx ∧ lx < (pws.width : Int) ∧ 0 ≤ ly ∧ ly < (pws.height : Int)) ∧
  (pws.pix lx ly).a = 255

instance (P : Prims) (raw : Canvas) (w h : Nat) (L : Layout) (X Y : Int) :
    Decidable (coveredBySubject P raw w h L X Y) := by
  unfold coveredBySubject
  infer_instance

/-! ## Concrete instances used to evaluate the pipeline -/

/-- A synthetic raw capture: 100x200, constant opaque color. -/
def demoRaw : Canvas := solidCanvas 100 200 ⟨10, 20, 30, 255⟩

/-- The layout of the end-to-end scenario: phone_scale 0.8, corner
radius 20, shadow offset 4, shadow blur 8, phone_y_offset 0.3, title_y
0.1, subtitle_y 0.2, glow radius 6. -/
def demoLayout : Layout :=
  ⟨(4 : ℚ)/5, 20, 4, 8, (3 : ℚ)/10, (1 : ℚ)/10, (1 : ℚ)/5, 6⟩

/-- Screenshot id used in concrete runs. -/
def idAlpha : String := "alpha"

/-- Second screenshot id used in concrete runs. -/
def idBeta : String := "beta"

/-- Device key used in concrete runs. -/
def devKey : String := "dev"

/-- Placeholder marketing text. -/
def titleStr : String := "TITLE"

/-- Placeholder marketing subtitle. -/
def subStr : String := "SUB"

/-- A per-screenshot background file name, as written by
`generate_backgrounds.py` (never read by the compositor). -/
def perScreenshotBgName : String := "01_home.png"

/-- First demo screenshot spec. -/
def scAlpha : ScreenshotSpec := ⟨idAlpha, titleStr, subStr, (0, 255, 170)⟩

/-- Second demo screenshot spec. -/
def scBeta : ScreenshotSpec := ⟨idBeta, titleStr, subStr, (255, 0, 128)⟩

/-- A two-screenshot, one-device configuration with a black-to-white
gradient fallback. -/
def demoCfg : Config :=
  ⟨[(devKey, 2, 2)], demoLayout, [scAlpha, scBeta], (0, 0, 0), (255, 255, 255)⟩

/-- The same configuration restricted to the second screenshot. -/
def demoCfgB : Config :=
  ⟨[(devKey, 2, 2)], demoLayout, [scBeta], (0, 0, 0), (255, 255, 255)⟩

/-- A 2x2 opaque image standing in for a decodable raw capture. -/
def tinyImg : Canvas := solidCanvas 2 2 ⟨1, 2, 3, 255⟩

/-- Environment with no files at all: every raw capture missing, no
background assets. -/
def envEmpty : Env := ⟨fun _ => .missing, fun _ => none⟩

/-- Environment where `alpha`'s capture exists but cannot be decoded
while `beta`'s is fine. -/
def envBadAlpha : Env :=
  ⟨fun s =>
    if s = rawFileName idAlpha devKey then .undecodable
    else if s = rawFileName idBeta devKey then .image tinyImg
    else .missing,
   fun _ => none⟩

/-- Environment where `alpha`'s capture is missing while `beta`'s is
fine. -/
def envMissAlpha : Env :=
  ⟨fun s => if s = rawFileName idBeta devKey then .image tinyImg else .missing,
   fun _ => none⟩

/-- Environment with every capture decodable and a stray per-screenshot
background file that the compositor must ignore. -/
def envStrayBg : Env :=
  ⟨fun _ => .image tinyImg,
   fun s => if s = perScreenshotBgName then some (solidCanvas 3 3 ⟨9, 9, 9, 255⟩)
     else none⟩

/-! ## Infrastructure lemmas -/

theorem foldl_width_fix {α : Type} (f : Canvas → α → Canvas)
    (hf : ∀ c a, (f c a).width = c.width) :
    ∀ (L : List α) (c : Canvas), (L.foldl f c).width = c.width := by
  intro L
  induction L with
  | nil => intro c; rfl
  | cons a L ih => intro c; rw [List.foldl_cons, ih, hf]

theorem foldl_height_fix {α : Type} (f : Canvas → α → Canvas)
    (hf : ∀ c a, (f c a).height = c.height) :
    ∀ (L : List α) (c : Canvas), (L.foldl f c).height = c.height := by
  intro L
  induction L with
  | nil => intro c; rfl
  | cons a L ih => intro c; rw [List.foldl_cons, ih, hf]

@[simp] theorem drawHLine_width (c : Canvas) (y : Int) (p : Pixel) :
    (drawHLine c y p).width = c.width := rfl

@[simp] theorem drawHLine_height (c : Canvas) (y : Int) (p : Pixel) :
    (drawHLine c y p).height = c.height := rfl

@[simp] theorem fillRect_width (c : Canvas) (x0 y0 x1 y1 : Int) (p : Pixel) :
    (fillRect c x0 y0 x1 y1 p).width = c.width := rfl

@[simp] theorem fillRect_height (c : Canvas) (x0 y0 x1 y1 : Int) (p : Pixel) :
    (fillRect c x0 y0 x1 y1 p).height = c.height := rfl

@[simp] theorem fillEllipse_width (c : Canvas) (cx cy : Int) (rx ry : Nat)
    (p : Pixel) : (fillEllipse c cx cy rx ry p).width = c.width := rfl

@[simp] theorem fillEllipse_height (c : Canvas) (cx cy : Int) (rx ry : Nat)
    (p : Pixel) : (fillEllipse c cx cy rx ry p).height = c.height := rfl

theorem alphaComposite_width {bot top : Canvas} (hw : bot.width = top.width)
    (hh : bot.height = top.height) :
    (alphaComposite bot top).width = bot.width := by
  unfold alphaComposite
  rw [if_pos ⟨hw, hh⟩]

theorem alphaComposite_height {bot top : Canvas} (hw : bot.width = top.width)
    (hh : bot.height = top.height) :
    (alphaComposite bot top).height = bot.height := by
  unfold alphaComposite
  rw [if_pos ⟨hw, hh⟩]

theorem vignetteBottomLayer_width (w h : Nat) (accent : Nat × Nat × Nat)
    (op : ℚ) : (vignetteBottomLayer w h accent op).width = w := by
  unfold vignetteBottomLayer
  exact foldl_width_fix
    (fun c y => drawHLine c (Int.ofNat y)
      ⟨accent.1, accent.2.1, accent.2.2, vignetteAlpha op h y⟩)
    (fun _ _ => rfl) (List.range h) (newCanvas w h)

theorem vignetteBottomLayer_height (w h : Nat) (accent : Nat × Nat × Nat)
    (op : ℚ) : (vignetteBottomLayer w h accent op).height = h := by
  unfold vignetteBottomLayer
  exact foldl_height_fix
    (fun c y => drawHLine c (Int.ofNat y)
      ⟨accent.1, accent.2.1, accent.2.2, vignetteAlpha op h y⟩)
    (fun _ _ => rfl) (List.range h) (newCanvas w h)

theorem edgeLayer_width (P : Prims) (w h : Nat) (accent : Nat × Nat × Nat)
    (op : ℚ) : (edgeLayer P w h accent op).width = w := by
  unfold edgeLayer
  exact foldl_width_fix
    (fun cRow y => (stepStarts w 4).foldl
      (fun c x =>
        let al := edgeAlpha P op w h x y
        if 0 < al then
          fillRect c (Int.ofNat x) (Int.ofNat y)
            (Int.ofNat x + 3) (Int.ofNat y + 3)
            ⟨accent.1, accent.2.1, accent.2.2, al⟩
        else c)
      cRow)
    (fun cRow y => foldl_width_fix _ (fun c x => by dsimp only; split <;> rfl)
      (stepStarts w 4) cRow)
    (stepStarts h 4) (newCanvas w h)

theorem edgeLayer_height (P : Prims) (w h : Nat) (accent : Nat × Nat × Nat)
    (op : ℚ) : (edgeLayer P w h accent op).height = h := by
  unfold edgeLayer
  exact foldl_height_fix
    (fun cRow y => (stepStarts w 4).foldl
      (fun c x =>
        let al := edgeAlpha P op w h x y
        if 0 < al then
          fillRect c (Int.ofNat x) (Int.ofNat y)
            (Int.ofNat x + 3) (Int.ofNat y + 3)
            ⟨accent.1, accent.2.1, accent.2.2, al⟩
        else c)
      cRow)
    (fun cRow y => foldl_height_fix _ (fun c x => by dsimp only; split <;> rfl)
      (stepStarts w 4) cRow)
    (stepStarts h 4) (newCanvas w h)

theorem glowLayer_width (w h : Nat) (accent : Nat × Nat × Nat)
    (rect : Int × Int × Nat × Nat) : (glowLayer w h accent rect).width = w := by
  unfold glowLayer
  exact foldl_width_fix
    (fun c i =>
      let rx := ringRadius (rect.2.2.1 * 9 / 10) i
      let ry := ringRadius (rect.2.2.2 * 7 / 10) i
      if rx < 1 ∨ ry < 1 then c
      else fillEllipse c (rect.1 + (rect.2.2.1 / 2 : Nat))
        (rect.2.1 + (rect.2.2.2 / 2 : Nat)) rx ry
        ⟨accent.1, accent.2.1, accent.2.2, ringAlpha i⟩)
    (fun c i => by dsimp only; split <;> rfl) (List.range 80) (newCanvas w h)

theorem glowLayer_height (w h : Nat) (accent : Nat × Nat × Nat)
    (rect : Int × Int × Nat × Nat) : (glowLayer w h accent rect).height = h := by
  unfold glowLayer
  exact foldl_height_fix
    (fun c i =>
      let rx := ringRadius (rect.2.2.1 * 9 / 10) i
      let ry := ringRadius (rect.2.2.2 * 7 / 10) i
      if rx < 1 ∨ ry < 1 then c
      else fillEllipse c (rect.1 + (rect.2.2.1 / 2 : Nat))
        (rect.2.1 + (rect.2.2.2 / 2 : Nat)) rx ry
        ⟨accent.1, accent.2.1, accent.2.2, ringAlpha i⟩)
    (fun c i => by dsimp only; split <;> rfl) (List.range 80) (newCanvas w h)

theorem scanLayer_width (w h : Nat) (al spacing : Nat) :
    ((stepStarts h spacing).foldl
      (fun c y => drawHLine c (Int.ofNat y) ⟨0, 0, 0, al⟩)
      (newCanvas w h)).width = w := by
  exact foldl_width_fix
    (fun c y => drawHLine c (Int.ofNat y) ⟨0, 0, 0, al⟩)
    (fun _ _ => rfl) (stepStarts h spacing) (newCanvas w h)

theorem scanLayer_height (w h : Nat) (al spacing : Nat) :
    ((stepStarts h spacing).foldl
      (fun c y => drawHLine c (Int.ofNat y) ⟨0, 0, 0, al⟩)
      (newCanvas w h)).height = h := by
  exact foldl_height_fix
    (fun c y => drawHLine c (Int.ofNat y) ⟨0, 0, 0, al⟩)
    (fun _ _ => rfl) (stepStarts h spacing) (newCanvas w h)

/-- Claim C2: each of the three effect-layer operations returns a canvas
with the width and height of its input canvas. -/
theorem effect_layers_preserve_dimensions (P : Prims) (canvas : Canvas)
    (accent : Nat × Nat × Nat) (op1 op2 : ℚ) (spacing : Nat)
    (rect : Int × Int × Nat × Nat) :
    (applyAccentVignette P canvas accent op1).width = canvas.width ∧
    (applyAccentVignette P canvas accent op1).height = canvas.height ∧
    (applyScanLines canvas op2 spacing).width = canvas.width ∧
    (applyScanLines canvas op2 spacing).height = canvas.height ∧
    (applyAccentGlow P canvas accent rect).width = canvas.width ∧
    (applyAccentGlow P canvas accent rect).height = canvas.height := by
  unfold applyAccentVignette applyScanLines applyAccentGlow
  have hbw := vignetteBottomLayer_width canvas.width canvas.height accent op1
  have hbh := vignetteBottomLayer_height canvas.width canvas.height accent op1
  have hew := edgeLayer_width P canvas.width canvas.height accent op1
  have heh := edgeLayer_height P canvas.width canvas.height accent op1
  have h1w := alphaComposite_width hbw.symm hbh.symm
  have h1h := alphaComposite_height hbw.symm hbh.symm
  refine ⟨?_, ?_, ?_, ?_, ?_, ?_⟩
  · rw [alphaComposite_width, h1w]
    · rw [h1w, hew]
    · rw [h1h, heh]
  · rw [alphaComposite_height, h1h]
    · rw [h1w, hew]
    · rw [h1h, heh]
  · rw [alphaComposite_width
      (scanLayer_width canvas.width canvas.height _ spacing).symm
      (scanLayer_height canvas.width canvas.height _ spacing).symm]
  · rw [alphaComposite_height
      (scanLayer_width canvas.width canvas.height _ spacing).symm
      (scanLayer_height canvas.width canvas.height _ spacing).symm]
  · rw [alphaComposite_width
      (by rw [P.blur_width, glowLayer_width])
      (by rw [P.blur_height, glowLayer_height])]
  · rw [alphaComposite_height
      (by rw [P.blur_width, glowLayer_width])
      (by rw [P.blur_height, glowLayer_height])]

/-- Claim C1: whenever the raw capture decodes, the output canvas is
built by exactly the fixed stage order: resolved background, accent
vignette, scan lines, accent glow centered on the subject rectangle,
shadowed-subject paste, title glow-text, subtitle glow-text (then the
flattening export). -/
theorem composite_stage_order (P : Prims) (env : Env) (cfg : Config)
    (sc : ScreenshotSpec) (dk : String) (w h : Nat) (st : BgState)
    (raw : Canvas) (hraw : env.raw (rawFileName sc.id dk) = .image raw) :
    compositeScreenshot P env cfg sc dk w h st =
      .ok (.composited (flattenRGB
        (renderGlowText P
          (renderGlowText P
            (pasteWithImgMask
              (applyAccentGlow P
                (applyScanLines
                  (applyAccentVignette P
                    (getRef (createBackground P env cfg w h st).2.1
                      (createBackground P env cfg w h st).1)
                    sc.accent ((18 : ℚ) / 100))
                  ((1 : ℚ) / 10) 4)
                sc.accent (phoneRect P raw w h cfg.layout))
              (phoneShadowed P raw w cfg.layout)
              (phoneX w P raw cfg.layout) (phoneY h cfg.layout))
            sc.title (((w / 2 : Nat) : Int), Int.floor ((h : ℚ) * cfg.layout.title_y))
            sc.accent (titleFontSize w) cfg.layout.glow_radius)
          sc.subtitle (((w / 2 : Nat) : Int), Int.floor ((h : ℚ) * cfg.layout.subtitle_y))
          (255, 255, 255) (subtitleFontSize w) (cfg.layout.glow_radius / 2))),
        (createBackground P env cfg w h st).2.1) := by
  unfold compositeScreenshot
  rw [hraw]

/-- Witness for C1 at a concrete configuration: the hypothesis (the raw
capture exists and decodes) holds for `envStrayBg`, and the conclusion
is the instantiated stage-order equation. -/
theorem composite_stage_order_witness :
    envStrayBg.raw (rawFileName scAlpha.id devKey) = .image tinyImg ∧
    compositeScreenshot idPrims envStrayBg demoCfg scAlpha devKey 2 2 BgState.empty =
      .ok (.composited (flattenRGB
        (renderGlowText idPrims
          (renderGlowText idPrims
            (pasteWithImgMask
              (applyAccentGlow idPrims
                (applyScanLines
                  (applyAccentVignette idPrims
                    (getRef (createBackground idPrims envStrayBg demoCfg 2 2 BgState.empty).2.1
                      (createBackground idPrims envStrayBg demoCfg 2 2 BgState.empty).1)
                    scAlpha.accent ((18 : ℚ) / 100))
                  ((1 : ℚ) / 10) 4)
                scAlpha.accent (phoneRect idPrims tinyImg 2 2 demoCfg.layout))
              (phoneShadowed idPrims tinyImg 2 demoCfg.layout)
              (phoneX 2 idPrims tinyImg demoCfg.layout) (phoneY 2 demoCfg.layout))
            scAlpha.title (((2 / 2 : Nat) : Int), Int.floor ((2 : ℚ) * demoCfg.layout.title_y))
            scAlpha.accent (titleFontSize 2) demoCfg.layout.glow_radius)
          scAlpha.subtitle (((2 / 2 : Nat) : Int), Int.floor ((2 : ℚ) * demoCfg.layout.subtitle_y))
          (255, 255, 255) (subtitleFontSize 2) (demoCfg.layout.glow_radius / 2))),
        (createBackground idPrims envStrayBg demoCfg 2 2 BgState.empty).2.1) :=
  ⟨rfl, composite_stage_order idPrims envStrayBg demoCfg scAlpha devKey 2 2
    BgState.empty tinyImg rfl⟩

/-- Claim C10: the background resolver consults only the shared
`backgrounds/background.png` entry and the configured gradient colors;
its result (returned reference, final state and branch taken) is
unchanged under any change of raw captures, screenshot specs, accent
colors, or per-screenshot background files. -/
theorem background_ignores_screenshot (P : Prims) (env env' : Env)
    (cfg cfg' : Config) (w h : Nat) (st : BgState)
    (hbg : env.bgFiles bgAssetName = env'.bgFiles bgAssetName)
    (htop : cfg.gradientTop = cfg'.gradientTop)
    (hbot : cfg.gradientBottom = cfg'.gradientBottom) :
    createBackground P env cfg w h st = createBackground P env' cfg' w h st := by
  unfold createBackground
  cases hc : cacheLookup st.cache (w, h) with
  | some r => rfl
  | none =>
    rw [hbg]
    cases hA : env'.bgFiles bgAssetName with
    | some asset => rfl
    | none =>
      have hgrad : gradientCanvas w h cfg = gradientCanvas w h cfg' := by
        unfold gradientCanvas gradPixel
        rw [htop, hbot]
      rw [hgrad]

/-- Witness for C10: two environments — one with a stray per-screenshot
background file and all captures present, one with nothing — and two
configurations with different screenshot lists agree on the shared
asset and the gradient colors, so the resolver behaves identically. -/
theorem background_ignores_screenshot_witness :
    envStrayBg.bgFiles bgAssetName = envEmpty.bgFiles bgAssetName ∧
    demoCfg.gradientTop = demoCfgB.gradientTop ∧
    demoCfg.gradientBottom = demoCfgB.gradientBottom ∧
    createBackground idPrims envStrayBg demoCfg 2 2 BgState.empty =
      createBackground idPrims envEmpty demoCfgB 2 2 BgState.empty :=
  ⟨rfl, rfl, rfl,
    background_ignores_screenshot idPrims envStrayBg envEmpty demoCfg demoCfgB
      2 2 BgState.empty rfl rfl rfl⟩

theorem storeGet_append_self : ∀ (l : List Canvas) (c : Canvas),
    storeGet (l ++ [c]) l.length = c
  | [], _ => rfl
  | _ :: l, c => storeGet_append_self l c

theorem storeGet_append_lt : ∀ (l more : List Canvas) (r : Nat),
    r < l.length → storeGet (l ++ more) r = storeGet l r
  | [], _, r, hr => absurd hr (by simp)
  | _ :: _, _, 0, _ => rfl
  | _ :: l, more, r + 1, hr =>
      storeGet_append_lt l more r (Nat.lt_of_succ_lt_succ hr)

theorem storeGet_set_ne : ∀ (l : List Canvas) (i j : Nat) (c : Canvas),
    i ≠ j → storeGet (storeSet l i c) j = storeGet l j
  | [], _, _, _, _ => rfl
  | _ :: _, 0, 0, _, hij => absurd rfl hij
  | _ :: _, 0, _ + 1, _, _ => rfl
  | _ :: _, _ + 1, 0, _, _ => rfl
  | _ :: l, i + 1, j + 1, c, hij =>
      storeGet_set_ne l i j c (fun e => hij (by rw [e]))

theorem cacheLookup_lt : ∀ (l : List ((Nat × Nat) × Nat)) (k : Nat × Nat)
    (r n : Nat), (∀ p ∈ l, p.2 < n) → cacheLookup l k = some r → r < n := by
  intro l
  induction l with
  | nil => intro k r n _ hc; exact absurd hc (by simp [cacheLookup])
  | cons p rest ih =>
      intro k r n hall hc
      by_cases hk : p.1 = k
      · have : some p.2 = some r := by
          simpa [cacheLookup, hk] using hc
        have hr : p.2 = r := by injection this
        exact hr ▸ hall p (by simp)
      · exact ih k r n (fun q hq => hall q (by simp [hq])) (by
          simpa [cacheLookup, hk] using hc)

theorem pixEq_of_eq {c d : Canvas} (h : c = d) : pixEq c d := by
  subst h
  exact ⟨rfl, rfl, fun _ _ _ => rfl⟩

theorem createBackground_hit (P : Prims) (env : Env) (cfg : Config)
    (w h : Nat) (st : BgState) (rA : Nat)
    (hc : cacheLookup st.cache (w, h) = some rA) :
    createBackground P env cfg w h st =
      (st.store.length, ⟨st.store ++ [getRef st rA], st.cache⟩, .cacheHit) := by
  simp [createBackground, hc, allocRef]

theorem createBackground_post (P : Prims) (env : Env) (cfg : Config)
    (w h : Nat) (st0 : BgState) (hwf : st0.wf) :
    ∃ rA,
      cacheLookup (createBackground P env cfg w h st0).2.1.cache (w, h) = some rA ∧
      rA ≠ (createBackground P env cfg w h st0).1 ∧
      getRef (createBackground P env cfg w h st0).2.1 rA =
        getRef (createBackground P env cfg w h st0).2.1
          (createBackground P env cfg w h st0).1 := by
  cases hc : cacheLookup st0.cache (w, h) with
  | some r =>
      rw [createBackground_hit P env cfg w h st0 r hc]
      refine ⟨r, hc, ?_, ?_⟩
      · exact Nat.ne_of_lt (cacheLookup_lt st0.cache (w, h) r _ hwf hc)
      · show storeGet (st0.store ++ [getRef st0 r]) r = _
        rw [storeGet_append_lt st0.store _ r
          (cacheLookup_lt st0.cache (w, h) r _ hwf hc)]
        exact (storeGet_append_self st0.store (getRef st0 r)).symm
  | none =>
      cases hA : env.bgFiles bgAssetName with
      | some asset =>
          refine ⟨st0.store.length, ?_, ?_, ?_⟩ <;>
            simp only [createBackground, hc, hA, allocRef, getRef]
          · simp [cacheLookup]
          · simp
          · rw [storeGet_append_self st0.store]
            rw [storeGet_append_lt (st0.store ++ [P.resize w h asset]) _
              st0.store.length (by simp)]
            rw [storeGet_append_self st0.store]
            exact (storeGet_append_self (st0.store ++ [P.resize w h asset]) _).symm
      | none =>
          refine ⟨st0.store.length, ?_, ?_, ?_⟩ <;>
            simp only [createBackground, hc, hA, allocRef, getRef]
          · simp [cacheLookup]
          · simp
          · rw [storeGet_append_self st0.store]
            rw [storeGet_append_lt (st0.store ++ [gradientCanvas w h cfg]) _
              st0.store.length (by simp)]
            rw [storeGet_append_self st0.store]
            exact (storeGet_append_self (st0.store ++ [gradientCanvas w h cfg]) _).symm

/-- Claim C4: after one resolution for `(w, h)`, a second resolution is
a cache hit and returns a canvas pixel-identical to the first result,
and this still holds if the caller mutates the canvas object the first
call returned, because the cache holds its own copy. -/
theorem background_cache_idempotent (P : Prims) (env : Env) (cfg : Config)
    (w h : Nat) (st0 : BgState) (m : Canvas) (hwf : st0.wf) :
    (createBackground P env cfg w h
      (createBackground P env cfg w h st0).2.1).2.2 = .cacheHit ∧
    pixEq
      (getRef (createBackground P env cfg w h
          (createBackground P env cfg w h st0).2.1).2.1
        (createBackground P env cfg w h
          (createBackground P env cfg w h st0).2.1).1)
      (getRef (createBackground P env cfg w h st0).2.1
        (createBackground P env cfg w h st0).1) ∧
    (createBackground P env cfg w h
      (mutateRef (createBackground P env cfg w h st0).2.1
        (createBackground P env cfg w h st0).1 m)).2.2 = .cacheHit ∧
    pixEq
      (getRef (createBackground P env cfg w h
          (mutateRef (createBackground P env cfg w h st0).2.1
            (createBackground P env cfg w h st0).1 m)).2.1
        (createBackground P env cfg w h
          (mutateRef (createBackground P env cfg w h st0).2.1
            (createBackground P env cfg w h st0).1 m)).1)
      (getRef (createBackground P env cfg w h st0).2.1
        (createBackground P env cfg w h st0).1) := by
  obtain ⟨rA, hlk, hne, heq⟩ := createBackground_post P env cfg w h st0 hwf
  have hlkM : cacheLookup
      (mutateRef (createBackground P env cfg w h st0).2.1
        (createBackground P env cfg w h st0).1 m).cache (w, h) = some rA := hlk
  refine ⟨?_, ?_, ?_, ?_⟩
  · rw [createBackground_hit P env cfg w h _ rA hlk]
  · rw [createBackground_hit P env cfg w h _ rA hlk]
    refine pixEq_of_eq ?_
    show storeGet ((createBackground P env cfg w h st0).2.1.store ++
      [getRef (createBackground P env cfg w h st0).2.1 rA]) _ = _
    rw [storeGet_append_self]
    exact heq
  · rw [createBackground_hit P env cfg w h _ rA hlkM]
  · rw [createBackground_hit P env cfg w h _ rA hlkM]
    refine pixEq_of_eq ?_
    show storeGet ((mutateRef (createBackground P env cfg w h st0).2.1
        (createBackground P env cfg w h st0).1 m).store ++
      [getRef (mutateRef (createBackground P env cfg w h st0).2.1
        (createBackground P env cfg w h st0).1 m) rA]) _ = _
    rw [storeGet_append_self]
    show storeGet (storeSet (createBackground P env cfg w h st0).2.1.store
      (createBackground P env cfg w h st0).1 m) rA = _
    rw [storeGet_set_ne _ _ _ _ (fun e => hne e.symm)]
    exact heq

/-- Witness for C4 at the initial (well-formed) empty cache state. -/
theorem background_cache_idempotent_witness :
    BgState.empty.wf ∧
    (createBackground idPrims envEmpty demoCfg 2 2
      (createBackground idPrims envEmpty demoCfg 2 2 BgState.empty).2.1).2.2 = .cacheHit ∧
    pixEq
      (getRef (createBackground idPrims envEmpty demoCfg 2 2
          (createBackground idPrims envEmpty demoCfg 2 2 BgState.empty).2.1).2.1
        (createBackground idPrims envEmpty demoCfg 2 2
          (createBackground idPrims envEmpty demoCfg 2 2 BgState.empty).2.1).1)
      (getRef (createBackground idPrims envEmpty demoCfg 2 2 BgState.empty).2.1
        (createBackground idPrims envEmpty demoCfg 2 2 BgState.empty).1) ∧
    (createBackground idPrims envEmpty demoCfg 2 2
      (mutateRef (createBackground idPrims envEmpty demoCfg 2 2 BgState.empty).2.1
        (createBackground idPrims envEmpty demoCfg 2 2 BgState.empty).1
        (solidCanvas 2 2 ⟨7, 7, 7, 7⟩))).2.2 = .cacheHit ∧
    pixEq
      (getRef (createBackground idPrims envEmpty demoCfg 2 2
          (mutateRef (createBackground idPrims envEmpty demoCfg 2 2 BgState.empty).2.1
            (createBackground idPrims envEmpty demoCfg 2 2 BgState.empty).1
            (solidCanvas 2 2 ⟨7, 7, 7, 7⟩))).2.1
        (createBackground idPrims envEmpty demoCfg 2 2
          (mutateRef (createBackground idPrims envEmpty demoCfg 2 2 BgState.empty).2.1
            (createBackground idPrims envEmpty demoCfg 2 2 BgState.empty).1
            (solidCanvas 2 2 ⟨7, 7, 7, 7⟩))).1)
      (getRef (createBackground idPrims envEmpty demoCfg 2 2 BgState.empty).2.1
        (createBackground idPrims envEmpty demoCfg 2 2 BgState.empty).1) := by
  have hwf : BgState.empty.wf := by decide
  have := background_cache_idempotent idPrims envEmpty demoCfg 2 2
    BgState.empty (solidCanvas 2 2 ⟨7, 7, 7, 7⟩) hwf
  exact ⟨hwf, this.1, this.2.1, this.2.2.1, this.2.2.2⟩

theorem range_rows_pix (w h : Nat) (color : Nat → Pixel) :
    ∀ (n : Nat) (X Y : Int),
      (((List.range n).foldl
          (fun c y => drawHLine c (Int.ofNat y) (color y))
          (newCanvas w h)).pix X Y) =
        if 0 ≤ X ∧ X < (w : Int) ∧ 0 ≤ Y ∧ Y < (h : Int) ∧ Y < (n : Int)
          then color Y.toNat else Pixel.clear := by
  intro n
  induction n with
  | zero =>
      intro X Y
      rw [if_neg]
      · rfl
      · rintro ⟨_, _, h0, _, hlt⟩
        omega
  | succ n ih =>
      intro X Y
      rw [List.range_succ, List.foldl_append, List.foldl_cons, List.foldl_nil]
      have hw := foldl_width_fix
        (fun c y => drawHLine c (Int.ofNat y) (color y))
        (fun _ _ => rfl) (List.range n) (newCanvas w h)
      have hh := foldl_height_fix
        (fun c y => drawHLine c (Int.ofNat y) (color y))
        (fun _ _ => rfl) (List.range n) (newCanvas w h)
      have ihXY := ih X Y
      show (if Y = ((n : Nat) : Int) ∧
          ((List.range n).foldl
            (fun c y => drawHLine c (Int.ofNat y) (color y))
            (newCanvas w h)).inB X Y
        then color n
        else ((List.range n).foldl
            (fun c y => drawHLine c (Int.ofNat y) (color y))
            (newCanvas w h)).pix X Y) = _
      rw [ihXY]
      have hinb : (((List.range n).foldl
          (fun c y => drawHLine c (Int.ofNat y) (color y))
          (newCanvas w h)).inB X Y) ↔
          (0 ≤ X ∧ X < (w : Int) ∧ 0 ≤ Y ∧ Y < (h : Int)) := by
        unfold Canvas.inB
        rw [hw, hh]
        exact Iff.rfl
      simp only [hinb]
      by_cases hY : Y = ((n : Nat) : Int)
      · have hYt : Y.toNat = n := by omega
        subst hYt
        split_ifs with h1 h2 h3 <;> first | rfl | omega
      · split_ifs with h1 h2 h3 <;> first | rfl | omega

theorem gradientCanvas_pix (w h : Nat) (cfg : Config) (X Y : Int) :
    (gradientCanvas w h cfg).pix X Y =
      if 0 ≤ X ∧ X < (w : Int) ∧ 0 ≤ Y ∧ Y < (h : Int)
        then gradPixel cfg h Y.toNat else Pixel.clear := by
  unfold gradientCanvas
  rw [range_rows_pix w h (gradPixel cfg h) h X Y]
  split_ifs with h1 h2 <;> first | rfl | omega

/-- Claim C5: with no shared background asset, the resolved background is
drawn by the gradient branch, and every pixel of row `y` is the
configured top/bottom color pair interpolated at ratio `y/height`
(per-channel floor), fully opaque. -/
theorem background_gradient_fallback (P : Prims) (env : Env) (cfg : Config)
    (w h x y : Nat) (st : BgState)
    (hA : env.bgFiles bgAssetName = none)
    (hC : cacheLookup st.cache (w, h) = none)
    (hx : x < w) (hy : y < h) :
    (createBackground P env cfg w h st).2.2 = .gradientDrawn ∧
    (getRef (createBackground P env cfg w h st).2.1
        (createBackground P env cfg w h st).1).pix (x : Int) (y : Int) =
      ⟨gradChan cfg.gradientTop.1 cfg.gradientBottom.1 y h,
       gradChan cfg.gradientTop.2.1 cfg.gradientBottom.2.1 y h,
       gradChan cfg.gradientTop.2.2 cfg.gradientBottom.2.2 y h, 255⟩ := by
  have hget : getRef (createBackground P env cfg w h st).2.1
      (createBackground P env cfg w h st).1 = gradientCanvas w h cfg := by
    simp only [createBackground, hC, hA, allocRef, getRef]
    rw [storeGet_append_self st.store]
    exact storeGet_append_self (st.store ++ [gradientCanvas w h cfg]) _
  constructor
  · simp only [createBackground, hC, hA]
  · rw [hget, gradientCanvas_pix]
    rw [if_pos (by omega)]
    have : ((y : Int)).toNat = y := by omega
    rw [this]
    rfl

/-- Witness for C5: a 2x4 gradient background over `envEmpty` from the
empty cache, sampled at pixel (1, 2). -/
theorem background_gradient_fallback_witness :
    envEmpty.bgFiles bgAssetName = none ∧
    cacheLookup BgState.empty.cache (2, 4) = none ∧
    (createBackground idPrims envEmpty demoCfg 2 4 BgState.empty).2.2 = .gradientDrawn ∧
    (getRef (createBackground idPrims envEmpty demoCfg 2 4 BgState.empty).2.1
        (createBackground idPrims envEmpty demoCfg 2 4 BgState.empty).1).pix
        ((1 : Nat) : Int) ((2 : Nat) : Int) =
      ⟨gradChan demoCfg.gradientTop.1 demoCfg.gradientBottom.1 2 4,
       gradChan demoCfg.gradientTop.2.1 demoCfg.gradientBottom.2.1 2 4,
       gradChan demoCfg.gradientTop.2.2 demoCfg.gradientBottom.2.2 2 4, 255⟩ := by
  have := background_gradient_fallback idPrims envEmpty demoCfg 2 4 1 2
    BgState.empty rfl rfl (by omega) (by omega)
  exact ⟨rfl, rfl, this.1, this.2⟩

theorem vignetteAlpha_eq_claim (op : ℚ) (h y : Nat) (hy : y < h) :
    vignetteAlpha op h y = vignetteAlphaClaim op h y := by
  unfold vignetteAlpha vignetteAlphaClaim
  have hh : (0 : ℚ) < h := by
    have : 0 < h := Nat.pos_of_ne_zero (by omega)
    exact_mod_cast this
  have hyq : (y : ℚ) < h := by exact_mod_cast hy
  have hcomm2 : (2 : ℚ)/5 * (h : ℚ) = (h : ℚ) * ((2 : ℚ)/5) := mul_comm _ _
  have hcomm3 : (3 : ℚ)/5 * (h : ℚ) = (h : ℚ) * ((3 : ℚ)/5) := mul_comm _ _
  rw [hcomm2, hcomm3]
  have hlt : ((y : ℚ) - (h : ℚ) * ((2 : ℚ)/5)) / ((h : ℚ) * ((3 : ℚ)/5)) < 1 := by
    rw [div_lt_one (by positivity)]
    linarith
  rw [min_eq_right (max_le (by norm_num) (le_of_lt hlt))]

theorem vignetteAlpha_zero (op : ℚ) (h y : Nat) (hy : 5 * y ≤ 2 * h) :
    vignetteAlpha op h y = 0 := by
  unfold vignetteAlpha
  have hnum : (y : ℚ) - (h : ℚ) * ((2 : ℚ)/5) ≤ 0 := by
    have : (5 : ℚ) * y ≤ 2 * h := by exact_mod_cast hy
    linarith
  have hden : (0 : ℚ) ≤ (h : ℚ) * ((3 : ℚ)/5) := by positivity
  have hdiv : ((y : ℚ) - (h : ℚ) * ((2 : ℚ)/5)) / ((h : ℚ) * ((3 : ℚ)/5)) ≤ 0 :=
    div_nonpos_iff.mpr (Or.inr ⟨hnum, hden⟩)
  rw [max_eq_left hdiv]
  norm_num

theorem vignetteAlpha_mono (op : ℚ) (hop : 0 ≤ op) (h y y' : Nat)
    (hyy : y ≤ y') : vignetteAlpha op h y ≤ vignetteAlpha op h y' := by
  unfold vignetteAlpha
  have hyq : (y : ℚ) ≤ y' := by exact_mod_cast hyy
  have hden : (0 : ℚ) ≤ (h : ℚ) * ((3 : ℚ)/5) := by positivity
  have hdiv : ((y : ℚ) - (h : ℚ) * ((2 : ℚ)/5)) / ((h : ℚ) * ((3 : ℚ)/5)) ≤
      ((y' : ℚ) - (h : ℚ) * ((2 : ℚ)/5)) / ((h : ℚ) * ((3 : ℚ)/5)) := by
    rcases eq_or_lt_of_le hden with hz | hpos
    · rw [← hz, div_zero, div_zero]
    · exact (div_le_div_iff_of_pos_right hpos).mpr (by linarith)
  have ht : max 0 (((y : ℚ) - (h : ℚ) * ((2 : ℚ)/5)) / ((h : ℚ) * ((3 : ℚ)/5))) ≤
      max 0 (((y' : ℚ) - (h : ℚ) * ((2 : ℚ)/5)) / ((h : ℚ) * ((3 : ℚ)/5))) :=
    max_le_max (le_refl 0) hdiv
  have ht0 : (0 : ℚ) ≤
      max 0 (((y : ℚ) - (h : ℚ) * ((2 : ℚ)/5)) / ((h : ℚ) * ((3 : ℚ)/5))) :=
    le_max_left _ _
  have hsq : max 0 (((y : ℚ) - (h : ℚ) * ((2 : ℚ)/5)) / ((h : ℚ) * ((3 : ℚ)/5))) *
      max 0 (((y : ℚ) - (h : ℚ) * ((2 : ℚ)/5)) / ((h : ℚ) * ((3 : ℚ)/5))) ≤
      max 0 (((y' : ℚ) - (h : ℚ) * ((2 : ℚ)/5)) / ((h : ℚ) * ((3 : ℚ)/5))) *
      max 0 (((y' : ℚ) - (h : ℚ) * ((2 : ℚ)/5)) / ((h : ℚ) * ((3 : ℚ)/5))) :=
    mul_le_mul ht ht ht0 (le_trans ht0 ht)
  have hmul : 255 * op *
      max 0 (((y : ℚ) - (h : ℚ) * ((2 : ℚ)/5)) / ((h : ℚ) * ((3 : ℚ)/5))) *
      max 0 (((y : ℚ) - (h : ℚ) * ((2 : ℚ)/5)) / ((h : ℚ) * ((3 : ℚ)/5))) ≤
      255 * op *
      max 0 (((y' : ℚ) - (h : ℚ) * ((2 : ℚ)/5)) / ((h : ℚ) * ((3 : ℚ)/5))) *
      max 0 (((y' : ℚ) - (h : ℚ) * ((2 : ℚ)/5)) / ((h : ℚ) * ((3 : ℚ)/5))) := by
    rw [mul_assoc (255 * op), mul_assoc (255 * op)]
    exact mul_le_mul_of_nonneg_left hsq (by positivity)
  exact Int.toNat_le_toNat (Int.floor_le_floor hmul)

/-- Claim C6: the bottom-gradient layer paints row `y` in the accent
color with alpha `⌊255·opacity·t²⌋`, `t = clamp((y−0.4h)/(0.6h), 0, 1)`
(the code's unclamped `t` agrees with the clamped one on every real
row); the alpha is zero for rows in the top 40% of the canvas,
non-decreasing in `y`, and maximal at the bottom row. -/
theorem vignette_bottom_profile (w h x y y' y0 : Nat)
    (accent : Nat × Nat × Nat) (op : ℚ) (hop : 0 ≤ op)
    (hx : x < w) (hy : y < h) (hy' : y' < h) (hyy : y ≤ y')
    (hy0 : 5 * y0 ≤ 2 * h) :
    (vignetteBottomLayer w h accent op).pix (x : Int) (y : Int) =
      ⟨accent.1, accent.2.1, accent.2.2, vignetteAlpha op h y⟩ ∧
    vignetteAlpha op h y = vignetteAlphaClaim op h y ∧
    vignetteAlpha op h y0 = 0 ∧
    vignetteAlpha op h y ≤ vignetteAlpha op h y' ∧
    vignetteAlpha op h y ≤ vignetteAlpha op h (h - 1) := by
  refine ⟨?_, vignetteAlpha_eq_claim op h y hy, vignetteAlpha_zero op h y0 hy0,
    vignetteAlpha_mono op hop h y y' hyy,
    vignetteAlpha_mono op hop h y (h - 1) (by omega)⟩
  unfold vignetteBottomLayer
  rw [range_rows_pix w h
    (fun r => ⟨accent.1, accent.2.1, accent.2.2, vignetteAlpha op h r⟩) h
    (x : Int) (y : Int)]
  rw [if_pos (by omega)]
  have : ((y : Nat) : Int).toNat = y := by omega
  rw [this]

/-- Witness for C6 with opacity 0.18 on a 3x10 canvas: rows 1 (top 40%),
7 and 9. -/
theorem vignette_bottom_profile_witness :
    (0 : ℚ) ≤ (18 : ℚ)/100 ∧ (1 : Nat) < 3 ∧ (7 : Nat) < 10 ∧
    (9 : Nat) < 10 ∧ (7 : Nat) ≤ 9 ∧ 5 * 1 ≤ 2 * 10 ∧
    ((vignetteBottomLayer 3 10 (0, 255, 170) ((18 : ℚ)/100)).pix
        ((1 : Nat) : Int) ((7 : Nat) : Int) =
      ⟨0, 255, 170, vignetteAlpha ((18 : ℚ)/100) 10 7⟩ ∧
    vignetteAlpha ((18 : ℚ)/100) 10 7 = vignetteAlphaClaim ((18 : ℚ)/100) 10 7 ∧
    vignetteAlpha ((18 : ℚ)/100) 10 1 = 0 ∧
    vignetteAlpha ((18 : ℚ)/100) 10 7 ≤ vignetteAlpha ((18 : ℚ)/100) 10 9 ∧
    vignetteAlpha ((18 : ℚ)/100) 10 7 ≤ vignetteAlpha ((18 : ℚ)/100) 10 (10 - 1)) :=
  ⟨by norm_num, by omega, by omega, by omega, by omega, by omega,
    vignette_bottom_profile 3 10 1 7 9 1 (0, 255, 170) ((18 : ℚ)/100)
      (by norm_num) (by omega) (by omega) (by omega) (by omega) (by omega)⟩

theorem composite_missing (P : Prims) (env : Env) (cfg : Config)
    (sc : ScreenshotSpec) (dk : String) (w h : Nat) (st : BgState)
    (hm : env.raw (rawFileName sc.id dk) = .missing) :
    compositeScreenshot P env cfg sc dk w h st = .ok (.skipped, st) := by
  unfold compositeScreenshot
  rw [hm]

theorem composite_undecodable (P : Prims) (env : Env) (cfg : Config)
    (sc : ScreenshotSpec) (dk : String) (w h : Nat) (st : BgState)
    (hu : env.raw (rawFileName sc.id dk) = .undecodable) :
    compositeScreenshot P env cfg sc dk w h st = .error .decodeFailed := by
  unfold compositeScreenshot
  rw [hu]

theorem composite_image_ok (P : Prims) (env : Env) (cfg : Config)
    (sc : ScreenshotSpec) (dk : String) (w h : Nat) (st : BgState)
    (raw : Canvas) (hi : env.raw (rawFileName sc.id dk) = .image raw) :
    ∃ c, compositeScreenshot P env cfg sc dk w h st =
      .ok (.composited c, (createBackground P env cfg w h st).2.1) := by
  unfold compositeScreenshot
  rw [hi]
  exact ⟨_, rfl⟩

theorem runPairs_all_processed (P : Prims) (env : Env) (cfg : Config) :
    ∀ (prs : List (ScreenshotSpec × String × Nat × Nat)) (st : BgState),
      (∀ pr ∈ prs, env.raw (pairRawName pr) ≠ .undecodable) →
      ∃ outs, runPairs P env cfg prs st = .ok outs ∧
        outs.length = prs.length ∧
        ∀ (k : Nat) (pr : ScreenshotSpec × String × Nat × Nat),
          prs[k]? = some pr →
          ∃ o, outs[k]? = some ((pr.1.id, pr.2.1), o) ∧
            (o = .skipped ↔ env.raw (pairRawName pr) = .missing) := by
  intro prs
  induction prs with
  | nil =>
      intro st _
      exact ⟨[], rfl, rfl, fun k pr hk => by simp at hk⟩
  | cons pr rest ih =>
      intro st hnod
      cases hr : env.raw (pairRawName pr) with
      | missing =>
          obtain ⟨outs, hrun, hlen, hidx⟩ :=
            ih st (fun q hq => hnod q (List.mem_cons_of_mem pr hq))
          refine ⟨((pr.1.id, pr.2.1), .skipped) :: outs, ?_, by simp [hlen], ?_⟩
          · show (match compositeScreenshot P env cfg pr.1 pr.2.1 pr.2.2.1
                pr.2.2.2 st with
              | Except.error e => Except.error e
              | Except.ok (o, st1) =>
                match runPairs P env cfg rest st1 with
                | Except.error e => Except.error e
                | Except.ok l => Except.ok (((pr.1.id, pr.2.1), o) :: l)) = _
            rw [composite_missing P env cfg pr.1 pr.2.1 pr.2.2.1 pr.2.2.2 st hr]
            dsimp only
            rw [hrun]
          · intro k q hk
            cases k with
            | zero =>
                have hq : pr = q := by simpa using hk
                subst hq
                exact ⟨.skipped, by simp, by simp [hr]⟩
            | succ k =>
                have hk' : rest[k]? = some q := by simpa using hk
                obtain ⟨o, ho, hiff⟩ := hidx k q hk'
                exact ⟨o, by simpa using ho, hiff⟩
      | undecodable =>
          exact absurd hr (hnod pr (List.mem_cons_self pr rest))
      | image raw =>
          obtain ⟨c, hcomp⟩ := composite_image_ok P env cfg pr.1 pr.2.1
            pr.2.2.1 pr.2.2.2 st raw hr
          obtain ⟨outs, hrun, hlen, hidx⟩ :=
            ih (createBackground P env cfg pr.2.2.1 pr.2.2.2 st).2.1
              (fun q hq => hnod q (List.mem_cons_of_mem pr hq))
          refine ⟨((pr.1.id, pr.2.1), .composited c) :: outs, ?_, by simp [hlen], ?_⟩
          · show (match compositeScreenshot P env cfg pr.1 pr.2.1 pr.2.2.1
                pr.2.2.2 st with
              | Except.error e => Except.error e
              | Except.ok (o, st1) =>
                match runPairs P env cfg rest st1 with
                | Except.error e => Except.error e
                | Except.ok l => Except.ok (((pr.1.id, pr.2.1), o) :: l)) = _
            rw [hcomp]
            dsimp only
            rw [hrun]
          · intro k q hk
            cases k with
            | zero =>
                have hq : pr = q := by simpa using hk
                subst hq
                refine ⟨.composited c, by simp, ?_⟩
                constructor
                · intro hco
                  cases hco
                · intro hmiss
                  rw [hr] at hmiss
                  cases hmiss
            | succ k =>
                have hk' : rest[k]? = some q := by simpa using hk
                obtain ⟨o, ho, hiff⟩ := hidx k q hk'
                exact ⟨o, by simpa using ho, hiff⟩

/-- Claim C8: when no raw capture is undecodable, a missing capture for
one pair yields a skipped outcome (no exception, no output canvas) while
the run still produces one outcome for every pair, with every other
pair processed normally. -/
theorem missing_raw_skips_and_continues (P : Prims) (env : Env) (cfg : Config)
    (k j : Nat) (pr q : ScreenshotSpec × String × Nat × Nat)
    (hnod : ∀ p ∈ allPairs cfg, env.raw (pairRawName p) ≠ .undecodable)
    (hk : (allPairs cfg)[k]? = some pr)
    (hmiss : env.raw (pairRawName pr) = .missing)
    (hj : (allPairs cfg)[j]? = some q) :
    ∃ outs, mainRun P env cfg = .ok outs ∧
      outs.length = (allPairs cfg).length ∧
      outs[k]? = some ((pr.1.id, pr.2.1), .skipped) ∧
      ∃ o, outs[j]? = some ((q.1.id, q.2.1), o) ∧
        (o = .skipped ↔ env.raw (pairRawName q) = .missing) := by
  obtain ⟨outs, hrun, hlen, hidx⟩ :=
    runPairs_all_processed P env cfg (allPairs cfg) BgState.empty hnod
  obtain ⟨o, ho, hiff⟩ := hidx k pr hk
  obtain ⟨o', ho', hiff'⟩ := hidx j q hj
  refine ⟨outs, hrun, hlen, ?_, o', ho', hiff'⟩
  rw [ho, hiff.mpr hmiss]

theorem runPairs_error_iff (P : Prims) (env : Env) (cfg : Config) :
    ∀ (prs : List (ScreenshotSpec × String × Nat × Nat)) (st : BgState),
      (∃ e, runPairs P env cfg prs st = .error e) ↔
        ∃ pr ∈ prs, env.raw (pairRawName pr) = .undecodable := by
  intro prs
  induction prs with
  | nil =>
      intro st
      constructor
      · rintro ⟨e, he⟩
        cases he
      · rintro ⟨pr, hmem, _⟩
        cases hmem
  | cons pr rest ih =>
      intro st
      cases hr : env.raw (pairRawName pr) with
      | missing =>
          have hstep : runPairs P env cfg (pr :: rest) st =
              (match runPairs P env cfg rest st with
                | Except.error e => Except.error e
                | Except.ok l => Except.ok (((pr.1.id, pr.2.1), .skipped) :: l)) := by
            show (match compositeScreenshot P env cfg pr.1 pr.2.1 pr.2.2.1
                pr.2.2.2 st with
              | Except.error e => Except.error e
              | Except.ok (o, st1) =>
                match runPairs P env cfg rest st1 with
                | Except.error e => Except.error e
                | Except.ok l => Except.ok (((pr.1.id, pr.2.1), o) :: l)) = _
            rw [composite_missing P env cfg pr.1 pr.2.1 pr.2.2.1 pr.2.2.2 st hr]
          constructor
          · rintro ⟨e, he⟩
            rw [hstep] at he
            cases hrest : runPairs P env cfg rest st with
            | error e' =>
                obtain ⟨q, hqm, hqu⟩ := (ih st).mp ⟨e', hrest⟩
                exact ⟨q, List.mem_cons_of_mem pr hqm, hqu⟩
            | ok l =>
                rw [hrest] at he
                cases he
          · rintro ⟨q, hqm, hqu⟩
            rcases List.mem_cons.mp hqm with hq | hq
            · subst hq
              rw [hr] at hqu
              cases hqu
            · obtain ⟨e, he⟩ := (ih st).mpr ⟨q, hq, hqu⟩
              rw [hstep, he]
              exact ⟨e, rfl⟩
      | undecodable =>
          have hstep : runPairs P env cfg (pr :: rest) st =
              .error .decodeFailed := by
            show (match compositeScreenshot P env cfg pr.1 pr.2.1 pr.2.2.1
                pr.2.2.2 st with
              | Except.error e => Except.error e
              | Except.ok (o, st1) =>
                match runPairs P env cfg rest st1 with
                | Except.error e => Except.error e
                | Except.ok l => Except.ok (((pr.1.id, pr.2.1), o) :: l)) = _
            rw [composite_undecodable P env cfg pr.1 pr.2.1 pr.2.2.1
              pr.2.2.2 st hr]
          constructor
          · intro _
            exact ⟨pr, List.mem_cons_self pr rest, hr⟩
          · intro _
            exact ⟨.decodeFailed, hstep⟩
      | image raw =>
          obtain ⟨c, hcomp⟩ := composite_image_ok P env cfg pr.1 pr.2.1
            pr.2.2.1 pr.2.2.2 st raw hr
          have hstep : runPairs P env cfg (pr :: rest) st =
              (match runPairs P env cfg rest
                  (createBackground P env cfg pr.2.2.1 pr.2.2.2 st).2.1 with
                | Except.error e => Except.error e
                | Except.ok l => Except.ok (((pr.1.id, pr.2.1), .composited c) :: l)) := by
            show (match compositeScreenshot P env cfg pr.1 pr.2.1 pr.2.2.1
                pr.2.2.2 st with
              | Except.error e => Except.error e
              | Except.ok (o, st1) =>
                match runPairs P env cfg rest st1 with
                | Except.error e => Except.error e
                | Except.ok l => Except.ok (((pr.1.id, pr.2.1), o) :: l)) = _
            rw [hcomp]
          constructor
          · rintro ⟨e, he⟩
            rw [hstep] at he
            cases hrest : runPairs P env cfg rest
                (createBackground P env cfg pr.2.2.1 pr.2.2.2 st).2.1 with
            | error e' =>
                obtain ⟨q, hqm, hqu⟩ := (ih _).mp ⟨e', hrest⟩
                exact ⟨q, List.mem_cons_of_mem pr hqm, hqu⟩
            | ok l =>
                rw [hrest] at he
                cases he
          · rintro ⟨q, hqm, hqu⟩
            rcases List.mem_cons.mp hqm with hq | hq
            · subst hq
              rw [hr] at hqu
              cases hqu
            · obtain ⟨e, he⟩ := (ih _).mpr ⟨q, hq, hqu⟩
              rw [hstep, he]
              exact ⟨e, rfl⟩

/-- Amended claim C9: an existing but undecodable raw capture is NOT
contained to its pair — the uncaught decode error aborts the entire run
(and a run aborts exactly when some pair's capture is undecodable). -/
theorem undecodable_aborts_run (P : Prims) (env : Env) (cfg : Config) :
    (∃ e, mainRun P env cfg = .error e) ↔
      ∃ pr ∈ allPairs cfg, env.raw (pairRawName pr) = .undecodable :=
  runPairs_error_iff P env cfg (allPairs cfg) BgState.empty

/-- Counterexample to claim C9 as stated: with `alpha`'s capture present
but undecodable and `beta`'s capture perfectly fine, the whole run
aborts with the decode error — no outcome is reported for `beta`, so
processing does not continue with the other pairs. -/
theorem undecodable_aborts_run_counterexample :
    mainRun idPrims envBadAlpha demoCfg = .error .decodeFailed := rfl

/-- Witness for C8: `alpha`'s capture missing, `beta`'s present; the run
succeeds, reports two outcomes, skips pair 0 and processes pair 1. -/
theorem missing_raw_skips_and_continues_witness :
    (allPairs demoCfg)[0]? = some (scAlpha, devKey, 2, 2) ∧
    envMissAlpha.raw (pairRawName (scAlpha, devKey, 2, 2)) = RawFile.missing ∧
    (allPairs demoCfg)[1]? = some (scBeta, devKey, 2, 2) ∧
    (∃ outs, mainRun idPrims envMissAlpha demoCfg = .ok outs ∧
      outs.length = (allPairs demoCfg).length ∧
      outs[0]? = some ((scAlpha.id, devKey), .skipped) ∧
      ∃ o, outs[1]? = some ((scBeta.id, devKey), o) ∧
        (o = .skipped ↔
          envMissAlpha.raw (pairRawName (scBeta, devKey, 2, 2)) = RawFile.missing)) := by
  refine ⟨rfl, rfl, rfl, ?_⟩
  have hnod : ∀ p ∈ allPairs demoCfg,
      envMissAlpha.raw (pairRawName p) ≠ RawFile.undecodable := by
    intro p hp
    have hall : allPairs demoCfg =
        [(scAlpha, devKey, 2, 2), (scBeta, devKey, 2, 2)] := rfl
    rw [hall] at hp
    rcases List.mem_cons.mp hp with hcase | hcase
    · subst hcase
      intro hcontr
      rw [show envMissAlpha.raw (pairRawName (scAlpha, devKey, 2, 2)) =
        RawFile.missing from rfl] at hcontr
      cases hcontr
    · rcases List.mem_cons.mp hcase with hcase2 | hcase2
      · subst hcase2
        intro hcontr
        rw [show envMissAlpha.raw (pairRawName (scBeta, devKey, 2, 2)) =
          RawFile.image tinyImg from rfl] at hcontr
        cases hcontr
      · cases hcase2
  exact missing_raw_skips_and_continues idPrims envMissAlpha demoCfg 0 1
    (scAlpha, devKey, 2, 2) (scBeta, devKey, 2, 2) hnod rfl rfl rfl

theorem ringAlpha_mono {i j : Nat} (hij : i ≤ j) : ringAlpha i ≤ ringAlpha j := by
  unfold ringAlpha
  exact Nat.div_le_div_right (Nat.mul_le_mul (Nat.mul_le_mul_left 51 hij) hij)

theorem glow_fold_pix_a (w h : Nat) (accent : Nat × Nat × Nat) (cx cy : Int)
    (grx gry : Nat) (X Y : Int) :
    ∀ n : Nat,
      ((((List.range n).foldl
          (fun c i =>
            let rx := ringRadius grx i
            let ry := ringRadius gry i
            if rx < 1 ∨ ry < 1 then c
            else fillEllipse c cx cy rx ry
              ⟨accent.1, accent.2.1, accent.2.2, ringAlpha i⟩)
          (newCanvas w h)).pix X Y).a) =
      (List.range n).foldl
        (fun a i =>
          if ¬(ringRadius grx i < 1 ∨ ringRadius gry i < 1) ∧
              ((X - cx) ^ 2 * ((ringRadius gry i : Nat) : Int) ^ 2 +
                (Y - cy) ^ 2 * ((ringRadius grx i : Nat) : Int) ^ 2 ≤
                ((ringRadius grx i : Nat) : Int) ^ 2 *
                  ((ringRadius gry i : Nat) : Int) ^ 2) ∧
              (0 ≤ X ∧ X < (w : Int) ∧ 0 ≤ Y ∧ Y < (h : Int))
            then ringAlpha i else a) 0 := by
  intro n
  induction n with
  | zero => rfl
  | succ n ih =>
      rw [List.range_succ, List.foldl_append, List.foldl_append,
        List.foldl_cons, List.foldl_cons, List.foldl_nil, List.foldl_nil]
      have hAw : ((List.range n).foldl
          (fun c i =>
            let rx := ringRadius grx i
            let ry := ringRadius gry i
            if rx < 1 ∨ ry < 1 then c
            else fillEllipse c cx cy rx ry
              ⟨accent.1, accent.2.1, accent.2.2, ringAlpha i⟩)
          (newCanvas w h)).width = w :=
        foldl_width_fix
          (fun c i =>
            let rx := ringRadius grx i
            let ry := ringRadius gry i
            if rx < 1 ∨ ry < 1 then c
            else fillEllipse c cx cy rx ry
              ⟨accent.1, accent.2.1, accent.2.2, ringAlpha i⟩)
          (fun c i => by dsimp only; split <;> rfl)
          (List.range n) (newCanvas w h)
      have hAh : ((List.range n).foldl
          (fun c i =>
            let rx := ringRadius grx i
            let ry := ringRadius gry i
            if rx < 1 ∨ ry < 1 then c
            else fillEllipse c cx cy rx ry
              ⟨accent.1, accent.2.1, accent.2.2, ringAlpha i⟩)
          (newCanvas w h)).height = h :=
        foldl_height_fix
          (fun c i =>
            let rx := ringRadius grx i
            let ry := ringRadius gry i
            if rx < 1 ∨ ry < 1 then c
            else fillEllipse c cx cy rx ry
              ⟨accent.1, accent.2.1, accent.2.2, ringAlpha i⟩)
          (fun c i => by dsimp only; split <;> rfl)
          (List.range n) (newCanvas w h)
      have hinb : ((List.range n).foldl
          (fun c i =>
            let rx := ringRadius grx i
            let ry := ringRadius gry i
            if rx < 1 ∨ ry < 1 then c
            else fillEllipse c cx cy rx ry
              ⟨accent.1, accent.2.1, accent.2.2, ringAlpha i⟩)
          (newCanvas w h)).inB X Y ↔
          (0 ≤ X ∧ X < (w : Int) ∧ 0 ≤ Y ∧ Y < (h : Int)) := by
        unfold Canvas.inB
        rw [hAw, hAh]
      dsimp only
      by_cases hskip : ringRadius grx n < 1 ∨ ringRadius gry n < 1
      · rw [if_pos hskip, if_neg (fun hcon => hcon.1 hskip)]
        exact ih
      · rw [if_neg hskip]
        show (if (X - cx) ^ 2 * ((ringRadius gry n : Nat) : Int) ^ 2 +
              (Y - cy) ^ 2 * ((ringRadius grx n : Nat) : Int) ^ 2 ≤
              ((ringRadius grx n : Nat) : Int) ^ 2 *
                ((ringRadius gry n : Nat) : Int) ^ 2 ∧
              ((List.range n).foldl
          (fun c i =>
            let rx := ringRadius grx i
            let ry := ringRadius gry i
            if rx < 1 ∨ ry < 1 then c
            else fillEllipse c cx cy rx ry
              ⟨accent.1, accent.2.1, accent.2.2, ringAlpha i⟩)
          (newCanvas w h)).inB X Y
            then (⟨accent.1, accent.2.1, accent.2.2, ringAlpha n⟩ : Pixel)
            else ((List.range n).foldl
          (fun c i =>
            let rx := ringRadius grx i
            let ry := ringRadius gry i
            if rx < 1 ∨ ry < 1 then c
            else fillEllipse c cx cy rx ry
              ⟨accent.1, accent.2.1, accent.2.2, ringAlpha i⟩)
          (newCanvas w h)).pix X Y).a = _
        by_cases hcw : ((X - cx) ^ 2 * ((ringRadius gry n : Nat) : Int) ^ 2 +
              (Y - cy) ^ 2 * ((ringRadius grx n : Nat) : Int) ^ 2 ≤
              ((ringRadius grx n : Nat) : Int) ^ 2 *
                ((ringRadius gry n : Nat) : Int) ^ 2) ∧
              (0 ≤ X ∧ X < (w : Int) ∧ 0 ≤ Y ∧ Y < (h : Int))
        · rw [if_pos ⟨hcw.1, hinb.mpr hcw.2⟩, if_pos ⟨hskip, hcw.1, hcw.2⟩]
        · rw [if_neg (fun hcon => hcw ⟨hcon.1, hinb.mp hcon.2⟩),
            if_neg (fun hcon => hcw ⟨hcon.2.1, hcon.2.2⟩)]
          exact ih

theorem ellipse_scale_down (k : Nat) (hk : 1 ≤ k) (dx dy R1 R2 B : Int)
    (h1 : 0 ≤ R1) (h2 : 0 ≤ R2)
    (hq : ((k : Int) * dx) ^ 2 * R1 + ((k : Int) * dy) ^ 2 * R2 ≤ B) :
    dx ^ 2 * R1 + dy ^ 2 * R2 ≤ B := by
  have hk1 : (1 : Int) ≤ (k : Int) := by exact_mod_cast hk
  have hk2 : (1 : Int) ≤ (k : Int) ^ 2 := by nlinarith
  have e1 : (0 : Int) ≤ ((k : Int) ^ 2 - 1) * (dx ^ 2 * R1) :=
    mul_nonneg (by linarith) (mul_nonneg (sq_nonneg dx) h1)
  have e2 : (0 : Int) ≤ ((k : Int) ^ 2 - 1) * (dy ^ 2 * R2) :=
    mul_nonneg (by linarith) (mul_nonneg (sq_nonneg dy) h2)
  nlinarith [hq, e1, e2]

theorem glow_scalar_mono (w h grx gry : Nat) (cx cy Xq Yq Xp Yp : Int)
    (hcont : ∀ rx ry : Nat,
      (Xq - cx) ^ 2 * ((ry : Nat) : Int) ^ 2 +
        (Yq - cy) ^ 2 * ((rx : Nat) : Int) ^ 2 ≤
        ((rx : Nat) : Int) ^ 2 * ((ry : Nat) : Int) ^ 2 →
      (Xp - cx) ^ 2 * ((ry : Nat) : Int) ^ 2 +
        (Yp - cy) ^ 2 * ((rx : Nat) : Int) ^ 2 ≤
        ((rx : Nat) : Int) ^ 2 * ((ry : Nat) : Int) ^ 2)
    (hpb : 0 ≤ Xp ∧ Xp < (w : Int) ∧ 0 ≤ Yp ∧ Yp < (h : Int)) :
    ∀ n : Nat,
      ((List.range n).foldl
        (fun a i =>
          if ¬(ringRadius grx i < 1 ∨ ringRadius gry i < 1) ∧
              ((Xq - cx) ^ 2 * ((ringRadius gry i : Nat) : Int) ^ 2 +
                (Yq - cy) ^ 2 * ((ringRadius grx i : Nat) : Int) ^ 2 ≤
                ((ringRadius grx i : Nat) : Int) ^ 2 *
                  ((ringRadius gry i : Nat) : Int) ^ 2) ∧
              (0 ≤ Xq ∧ Xq < (w : Int) ∧ 0 ≤ Yq ∧ Yq < (h : Int))
            then ringAlpha i else a) 0 ≤ ringAlpha (n - 1)) ∧
      ((List.range n).foldl
        (fun a i =>
          if ¬(ringRadius grx i < 1 ∨ ringRadius gry i < 1) ∧
              ((Xq - cx) ^ 2 * ((ringRadius gry i : Nat) : Int) ^ 2 +
                (Yq - cy) ^ 2 * ((ringRadius grx i : Nat) : Int) ^ 2 ≤
                ((ringRadius grx i : Nat) : Int) ^ 2 *
                  ((ringRadius gry i : Nat) : Int) ^ 2) ∧
              (0 ≤ Xq ∧ Xq < (w : Int) ∧ 0 ≤ Yq ∧ Yq < (h : Int))
            then ringAlpha i else a) 0 ≤
      (List.range n).foldl
        (fun a i =>
          if ¬(ringRadius grx i < 1 ∨ ringRadius gry i < 1) ∧
              ((Xp - cx) ^ 2 * ((ringRadius gry i : Nat) : Int) ^ 2 +
                (Yp - cy) ^ 2 * ((ringRadius grx i : Nat) : Int) ^ 2 ≤
                ((ringRadius grx i : Nat) : Int) ^ 2 *
                  ((ringRadius gry i : Nat) : Int) ^ 2) ∧
              (0 ≤ Xp ∧ Xp < (w : Int) ∧ 0 ≤ Yp ∧ Yp < (h : Int))
            then ringAlpha i else a) 0) := by
  intro n
  induction n with
  | zero => exact ⟨Nat.le_refl 0, Nat.le_refl 0⟩
  | succ n ih =>
      simp only [List.range_succ, List.foldl_append, List.foldl_cons,
        List.foldl_nil, Nat.succ_sub_one]
      by_cases hq : ¬(ringRadius grx n < 1 ∨ ringRadius gry n < 1) ∧
          ((Xq - cx) ^ 2 * ((ringRadius gry n : Nat) : Int) ^ 2 +
            (Yq - cy) ^ 2 * ((ringRadius grx n : Nat) : Int) ^ 2 ≤
            ((ringRadius grx n : Nat) : Int) ^ 2 *
              ((ringRadius gry n : Nat) : Int) ^ 2) ∧
          (0 ≤ Xq ∧ Xq < (w : Int) ∧ 0 ≤ Yq ∧ Yq < (h : Int))
      · rw [if_pos hq, if_pos ⟨hq.1, hcont _ _ hq.2.1, hpb⟩]
        exact ⟨Nat.le_refl _, Nat.le_refl _⟩
      · rw [if_neg hq]
        constructor
        · exact Nat.le_trans ih.1 (ringAlpha_mono (Nat.sub_le n 1))
        · by_cases hp : ¬(ringRadius grx n < 1 ∨ ringRadius gry n < 1) ∧
              ((Xp - cx) ^ 2 * ((ringRadius gry n : Nat) : Int) ^ 2 +
                (Yp - cy) ^ 2 * ((ringRadius grx n : Nat) : Int) ^ 2 ≤
                ((ringRadius grx n : Nat) : Int) ^ 2 *
                  ((ringRadius gry n : Nat) : Int) ^ 2) ∧
              (0 ≤ Xp ∧ Xp < (w : Int) ∧ 0 ≤ Yp ∧ Yp < (h : Int))
          · rw [if_pos hp]
            exact Nat.le_trans ih.1 (ringAlpha_mono (Nat.sub_le n 1))
          · rw [if_neg hp]
            exact ih.2

/-- Amended claim C7: in the pre-blur glow layer, opacity is
non-increasing along any ray from the subject-rectangle center — a point
whose offset from the center is an integer multiple `k ≥ 1` of another
point's offset has alpha no greater than that point's.  (Strict decrease
with respect to the normalized elliptical distance is false; see the
counterexample.) -/
theorem glow_ray_monotone (w h : Nat) (accent : Nat × Nat × Nat)
    (px py : Int) (pw ph : Nat) (dx dy : Int) (k : Nat) (hk : 1 ≤ k)
    (hb1 : 0 ≤ px + ((pw / 2 : Nat) : Int) + dx)
    (hb2 : px + ((pw / 2 : Nat) : Int) + dx < (w : Int))
    (hb3 : 0 ≤ py + ((ph / 2 : Nat) : Int) + dy)
    (hb4 : py + ((ph / 2 : Nat) : Int) + dy < (h : Int)) :
    ((glowLayer w h accent (px, py, pw, ph)).pix
        (px + ((pw / 2 : Nat) : Int) + (k : Int) * dx)
        (py + ((ph / 2 : Nat) : Int) + (k : Int) * dy)).a ≤
    ((glowLayer w h accent (px, py, pw, ph)).pix
        (px + ((pw / 2 : Nat) : Int) + dx)
        (py + ((ph / 2 : Nat) : Int) + dy)).a := by
  unfold glowLayer
  dsimp only
  rw [glow_fold_pix_a w h accent (px + ((pw / 2 : Nat) : Int))
    (py + ((ph / 2 : Nat) : Int)) (pw * 9 / 10) (ph * 7 / 10)
    (px + ((pw / 2 : Nat) : Int) + (k : Int) * dx)
    (py + ((ph / 2 : Nat) : Int) + (k : Int) * dy) 80]
  rw [glow_fold_pix_a w h accent (px + ((pw / 2 : Nat) : Int))
    (py + ((ph / 2 : Nat) : Int)) (pw * 9 / 10) (ph * 7 / 10)
    (px + ((pw / 2 : Nat) : Int) + dx)
    (py + ((ph / 2 : Nat) : Int) + dy) 80]
  refine (glow_scalar_mono w h (pw * 9 / 10) (ph * 7 / 10)
    (px + ((pw / 2 : Nat) : Int)) (py + ((ph / 2 : Nat) : Int))
    (px + ((pw / 2 : Nat) : Int) + (k : Int) * dx)
    (py + ((ph / 2 : Nat) : Int) + (k : Int) * dy)
    (px + ((pw / 2 : Nat) : Int) + dx)
    (py + ((ph / 2 : Nat) : Int) + dy)
    ?_ ⟨hb1, hb2, hb3, hb4⟩ 80).2
  intro rx ry hq
  simp only [add_sub_cancel_left] at hq ⊢
  exact ellipse_scale_down k hk dx dy _ _ _ (by positivity) (by positivity) hq

/-- Witness for C7 (amended) on a 200x200 canvas with subject rectangle
(0, 0, 100, 100): doubling the offset (1, 0) from the glow center
cannot increase the painted alpha. -/
theorem glow_ray_monotone_witness :
    (1 : Nat) ≤ 2 ∧
    (0 : Int) ≤ 0 + ((100 / 2 : Nat) : Int) + 1 ∧
    (0 : Int) + ((100 / 2 : Nat) : Int) + 1 < ((200 : Nat) : Int) ∧
    (0 : Int) ≤ 0 + ((100 / 2 : Nat) : Int) + 0 ∧
    (0 : Int) + ((100 / 2 : Nat) : Int) + 0 < ((200 : Nat) : Int) ∧
    ((glowLayer 200 200 (0, 255, 170) (0, 0, 100, 100)).pix
        (0 + ((100 / 2 : Nat) : Int) + (2 : Nat) * 1)
        (0 + ((100 / 2 : Nat) : Int) + (2 : Nat) * 0)).a ≤
    ((glowLayer 200 200 (0, 255, 170) (0, 0, 100, 100)).pix
        (0 + ((100 / 2 : Nat) : Int) + 1)
        (0 + ((100 / 2 : Nat) : Int) + 0)).a :=
  ⟨by norm_num, by norm_num, by norm_num, by norm_num, by norm_num,
    glow_ray_monotone 200 200 (0, 255, 170) 0 0 100 100 1 0 2
      (by norm_num) (by norm_num) (by norm_num) (by norm_num) (by norm_num)⟩

/-- Counterexample to claim C7 as stated: on a 200x200 canvas with
subject rectangle (0, 0, 100, 100) (center (50, 50), outer radii 90 and
70, innermost drawn ring 78 with radii (2, 1); ring 79 collapses), the
points (51, 52) and (53, 50) both lie outside the innermost ellipse,
(53, 50) is strictly farther in the normalized elliptical metric, yet
its pre-blur alpha is 94 — strictly HIGHER than the 92 at (51, 52). -/
theorem glow_strict_decrease_counterexample :
    (100 * 9 / 10 = 90 ∧ 100 * 7 / 10 = 70) ∧
    (ringRadius 90 78 = 2 ∧ ringRadius 70 78 = 1 ∧ ringRadius 70 79 = 0) ∧
    ¬((51 - 50 : Int) ^ 2 * 1 ^ 2 + (52 - 50 : Int) ^ 2 * 2 ^ 2 ≤
      (2 : Int) ^ 2 * 1 ^ 2) ∧
    ¬((53 - 50 : Int) ^ 2 * 1 ^ 2 + (50 - 50 : Int) ^ 2 * 2 ^ 2 ≤
      (2 : Int) ^ 2 * 1 ^ 2) ∧
    ((51 - 50 : Int) ^ 2 * 70 ^ 2 + (52 - 50 : Int) ^ 2 * 90 ^ 2 <
      (53 - 50 : Int) ^ 2 * 70 ^ 2 + (50 - 50 : Int) ^ 2 * 90 ^ 2) ∧
    ((glowLayer 200 200 (0, 255, 170) (0, 0, 100, 100)).pix 51 52).a = 92 ∧
    ((glowLayer 200 200 (0, 255, 170) (0, 0, 100, 100)).pix 53 50).a = 94 ∧
    ¬(((glowLayer 200 200 (0, 255, 170) (0, 0, 100, 100)).pix 53 50).a <
      ((glowLayer 200 200 (0, 255, 170) (0, 0, 100, 100)).pix 51 52).a) := by
  decide

theorem blendBand_full (x s : Nat) : blendBand x s 255 = x := by
  unfold blendBand
  norm_num

theorem blendBand_nomask (s : Nat) : blendBand 0 s 0 = s := by
  unfold blendBand
  norm_num

theorem pasteNoMask_alpha_le (base img : Canvas) (px py : Int) (M : Nat)
    (hb : ∀ x y : Int, (base.pix x y).a ≤ M)
    (hi : ∀ x y : Int, (img.pix x y).a ≤ M) :
    ∀ x y : Int, ((pasteNoMask base img px py).pix x y).a ≤ M := by
  intro x y
  unfold pasteNoMask
  dsimp only
  split
  · exact hi _ _
  · exact hb _ _

theorem inRoundedRect_bounds {pw ph r : Nat} {x y : Int}
    (hm : inRoundedRect pw ph r x y = true) :
    0 ≤ x ∧ x < (pw : Int) ∧ 0 ≤ y ∧ y < (ph : Int) := by
  unfold inRoundedRect at hm
  by_cases hout : x < 0 ∨ (pw : Int) ≤ x ∨ y < 0 ∨ (ph : Int) ≤ y
  · rw [if_pos hout] at hm
    cases hm
  · push_neg at hout
    exact ⟨hout.1, hout.2.1, hout.2.2.1, hout.2.2.2⟩

theorem addDropShadow_alpha (P : Prims) (img : Canvas) (off b : Nat) (r : Nat)
    (himg : ∀ x y : Int, (img.pix x y).a =
      (if inRoundedRect img.width img.height r x y then 255 else 0))
    (lx ly : Int)
    (hin : 0 ≤ lx ∧ lx < ((img.width + b * 4 : Nat) : Int) ∧
      0 ≤ ly ∧ ly < ((img.height + b * 4 : Nat) : Int)) :
    (((addDropShadow P img off b).pix lx ly).a = 255 ↔
      inRoundedRect img.width img.height r
        (lx - (b : Int) * 2) (ly - (b : Int) * 2) = true) ∧
    (inRoundedRect img.width img.height r
        (lx - (b : Int) * 2) (ly - (b : Int) * 2) = true →
      (addDropShadow P img off b).pix lx ly =
        img.pix (lx - (b : Int) * 2) (ly - (b : Int) * 2)) := by
  unfold addDropShadow
  dsimp only
  have hs1a : ∀ x y : Int,
      ((pasteNoMask (newCanvas (img.width + b * 4) (img.height + b * 4))
        (solidCanvas img.width img.height ⟨0, 0, 0, 120⟩)
        ((b : Int) * 2 + (off : Int)) ((b : Int) * 2 + (off : Int))).pix x y).a
        ≤ 120 :=
    pasteNoMask_alpha_le _ _ _ _ 120
      (fun _ _ => by simp [newCanvas, Pixel.clear])
      (fun _ _ => by simp [solidCanvas])
  have hs2a : ∀ x y : Int,
      (P.blur b (pasteNoMask (newCanvas (img.width + b * 4) (img.height + b * 4))
        (solidCanvas img.width img.height ⟨0, 0, 0, 120⟩)
        ((b : Int) * 2 + (off : Int)) ((b : Int) * 2 + (off : Int)))).inB x y →
      ((P.blur b (pasteNoMask (newCanvas (img.width + b * 4) (img.height + b * 4))
        (solidCanvas img.width img.height ⟨0, 0, 0, 120⟩)
        ((b : Int) * 2 + (off : Int)) ((b : Int) * 2 + (off : Int)))).pix x y).a
        ≤ 120 :=
    P.blur_alpha_le b _ 120 (fun x y _ => hs1a x y)
  have hs2in : (P.blur b (pasteNoMask
      (newCanvas (img.width + b * 4) (img.height + b * 4))
      (solidCanvas img.width img.height ⟨0, 0, 0, 120⟩)
      ((b : Int) * 2 + (off : Int)) ((b : Int) * 2 + (off : Int)))).inB lx ly := by
    unfold Canvas.inB
    rw [P.blur_width, P.blur_height]
    exact hin
  by_cases hreg : 0 ≤ lx - (b : Int) * 2 ∧ lx - (b : Int) * 2 < (img.width : Int) ∧
      0 ≤ ly - (b : Int) * 2 ∧ ly - (b : Int) * 2 < (img.height : Int)
  · -- inside the pasted subject region: the mask is the subject's alpha
    simp only [pasteWithImgMask]
    rw [if_pos ⟨hreg.1, hreg.2.1, hreg.2.2.1, hreg.2.2.2, hs2in⟩]
    by_cases hmem : inRoundedRect img.width img.height r
        (lx - (b : Int) * 2) (ly - (b : Int) * 2) = true
    · have hfa : (img.pix (lx - (b : Int) * 2) (ly - (b : Int) * 2)).a = 255 := by
        rw [himg, if_pos hmem]
      constructor
      · rw [hfa]
        dsimp only
        rw [blendBand_full]
        exact ⟨fun _ => hmem, fun _ => rfl⟩
      · intro _
        rw [hfa, blendBand_full, blendBand_full, blendBand_full, blendBand_full]
        rw [← hfa]
    · have hfa : (img.pix (lx - (b : Int) * 2) (ly - (b : Int) * 2)).a = 0 := by
        rw [himg, if_neg hmem]
      constructor
      · rw [hfa]
        dsimp only
        rw [blendBand_nomask]
        constructor
        · intro h255
          have := hs2a lx ly hs2in
          omega
        · intro hm
          exact absurd hm hmem
      · intro hm
        exact absurd hm hmem
  · -- outside the subject region: only the blurred shadow is there
    simp only [pasteWithImgMask]
    rw [if_neg (fun hcon => hreg ⟨hcon.1, hcon.2.1, hcon.2.2.1, hcon.2.2.2.1⟩)]
    constructor
    · constructor
      · intro h255
        have := hs2a lx ly hs2in
        omega
      · intro hm
        exact absurd (inRoundedRect_bounds hm) hreg
    · intro hm
      exact absurd (inRoundedRect_bounds hm) hreg

theorem phoneRounded_width (P : Prims) (raw : Canvas) (w : Nat) (L : Layout) :
    (phoneRounded P raw w L).width = phoneW w L := by
  unfold phoneRounded addRoundedCorners phoneScaled
  exact P.resize_width _ _ _

theorem phoneRounded_height (P : Prims) (raw : Canvas) (w : Nat) (L : Layout) :
    (phoneRounded P raw w L).height = phoneH raw (phoneW w L) := by
  unfold phoneRounded addRoundedCorners phoneScaled
  exact P.resize_height _ _ _

theorem phoneRounded_alpha (P : Prims) (raw : Canvas) (w : Nat) (L : Layout) :
    ∀ x y : Int, ((phoneRounded P raw w L).pix x y).a =
      (if inRoundedRect (phoneRounded P raw w L).width
          (phoneRounded P raw w L).height (cornerRad L) x y
        then 255 else 0) :=
  fun _ _ => rfl

theorem phoneShadowed_width (P : Prims) (raw : Canvas) (w : Nat) (L : Layout) :
    (phoneShadowed P raw w L).width = phoneW w L + L.shadow_blur * 4 := by
  unfold phoneShadowed addDropShadow
  dsimp only
  show (P.blur L.shadow_blur _).width = _
  rw [P.blur_width]
  show (phoneRounded P raw w L).width + L.shadow_blur * 4 = _
  rw [phoneRounded_width]

theorem phoneShadowed_height (P : Prims) (raw : Canvas) (w : Nat) (L : Layout) :
    (phoneShadowed P raw w L).height =
      phoneH raw (phoneW w L) + L.shadow_blur * 4 := by
  unfold phoneShadowed addDropShadow
  dsimp only
  show (P.blur L.shadow_blur _).height = _
  rw [P.blur_height]
  show (phoneRounded P raw w L).height + L.shadow_blur * 4 = _
  rw [phoneRounded_height]

theorem phoneShadowed_alpha (P : Prims) (raw : Canvas) (w : Nat) (L : Layout)
    (lx ly : Int)
    (hin : 0 ≤ lx ∧ lx < ((phoneW w L + L.shadow_blur * 4 : Nat) : Int) ∧
      0 ≤ ly ∧ ly < ((phoneH raw (phoneW w L) + L.shadow_blur * 4 : Nat) : Int)) :
    (((phoneShadowed P raw w L).pix lx ly).a = 255 ↔
      inRoundedRect (phoneW w L) (phoneH raw (phoneW w L)) (cornerRad L)
        (lx - (L.shadow_blur : Int) * 2) (ly - (L.shadow_blur : Int) * 2) = true) ∧
    (inRoundedRect (phoneW w L) (phoneH raw (phoneW w L)) (cornerRad L)
        (lx - (L.shadow_blur : Int) * 2) (ly - (L.shadow_blur : Int) * 2) = true →
      (phoneShadowed P raw w L).pix lx ly =
        (phoneRounded P raw w L).pix (lx - (L.shadow_blur : Int) * 2)
          (ly - (L.shadow_blur : Int) * 2)) := by
  have hin2 : 0 ≤ lx ∧
      lx < (((phoneRounded P raw w L).width + L.shadow_blur * 4 : Nat) : Int) ∧
      0 ≤ ly ∧
      ly < (((phoneRounded P raw w L).height + L.shadow_blur * 4 : Nat) : Int) := by
    rw [phoneRounded_width, phoneRounded_height]
    exact hin
  have h1 := addDropShadow_alpha P (phoneRounded P raw w L) L.shadow_offset
    L.shadow_blur (cornerRad L) (phoneRounded_alpha P raw w L) lx ly hin2
  rw [phoneRounded_width, phoneRounded_height] at h1
  exact h1

/-- Amended claim C3: the reported placement rectangle (paste offset
plus the 2·shadow_blur internal padding per axis) is exactly where the
un-padded rounded subject is visible on the final canvas: a pixel is
covered by the subject iff it lies inside the canvas, inside the
rectangle, and inside the rounded-corner mask — and such pixels show the
rounded subject's own pixels.  (The literal rectangle corners are NOT
covered whenever the scaled corner radius is positive; see the
counterexample.) -/
theorem subject_round_trip_placement (P : Prims) (raw : Canvas) (w h : Nat)
    (L : Layout) (c : Canvas) (X Y : Int)
    (hcw : c.width = w) (hch : c.height = h) :
    (coveredBySubject P raw w h L X Y ↔
      ((0 ≤ X ∧ X < (w : Int) ∧ 0 ≤ Y ∧ Y < (h : Int)) ∧
        (phoneRect P raw w h L).1 ≤ X ∧
        X < (phoneRect P raw w h L).1 + ((phoneRect P raw w h L).2.2.1 : Int) ∧
        (phoneRect P raw w h L).2.1 ≤ Y ∧
        Y < (phoneRect P raw w h L).2.1 + ((phoneRect P raw w h L).2.2.2 : Int) ∧
        inRoundedRect (phoneRect P raw w h L).2.2.1
          (phoneRect P raw w h L).2.2.2 (cornerRad L)
          (X - (phoneRect P raw w h L).1)
          (Y - (phoneRect P raw w h L).2.1) = true)) ∧
    (coveredBySubject P raw w h L X Y →
      (pasteWithImgMask c (phoneShadowed P raw w L)
          (phoneX w P raw L) (phoneY h L)).pix X Y =
        (phoneRounded P raw w L).pix (X - (phoneRect P raw w h L).1)
          (Y - (phoneRect P raw w h L).2.1)) := by
  have hr1 : (phoneRect P raw w h L).1 =
      phoneX w P raw L + (L.shadow_blur : Int) * 2 := rfl
  have hr2 : (phoneRect P raw w h L).2.1 =
      phoneY h L + (L.shadow_blur : Int) * 2 := rfl
  have hr3 : (phoneRect P raw w h L).2.2.1 = phoneW w L := rfl
  have hr4 : (phoneRect P raw w h L).2.2.2 = phoneH raw (phoneW w L) := rfl
  rw [hr1, hr2, hr3, hr4]
  have harg1 : X - (phoneX w P raw L + (L.shadow_blur : Int) * 2) =
      X - phoneX w P raw L - (L.shadow_blur : Int) * 2 := by ring
  have harg2 : Y - (phoneY h L + (L.shadow_blur : Int) * 2) =
      Y - phoneY h L - (L.shadow_blur : Int) * 2 := by ring
  rw [harg1, harg2]
  simp only [coveredBySubject]
  rw [phoneShadowed_width, phoneShadowed_height]
  constructor
  · constructor
    · rintro ⟨hcb, hreg, ha⟩
      have hps := phoneShadowed_alpha P raw w L (X - phoneX w P raw L)
        (Y - phoneY h L) hreg
      have hmem := hps.1.mp ha
      have hbnd := inRoundedRect_bounds hmem
      exact ⟨hcb, by omega, by omega, by omega, by omega, hmem⟩
    · rintro ⟨hcb, hx1, hx2, hy1, hy2, hmem⟩
      have hreg : 0 ≤ X - phoneX w P raw L ∧
          X - phoneX w P raw L <
            ((phoneW w L + L.shadow_blur * 4 : Nat) : Int) ∧
          0 ≤ Y - phoneY h L ∧
          Y - phoneY h L <
            ((phoneH raw (phoneW w L) + L.shadow_blur * 4 : Nat) : Int) := by
        omega
      exact ⟨hcb, hreg,
        (phoneShadowed_alpha P raw w L _ _ hreg).1.mpr hmem⟩
  · rintro ⟨hcb, hreg, ha⟩
    have hps := phoneShadowed_alpha P raw w L (X - phoneX w P raw L)
      (Y - phoneY h L) hreg
    have hmem := hps.1.mp ha
    have hpix := hps.2 hmem
    simp only [pasteWithImgMask]
    rw [if_pos ⟨hreg.1, by rw [phoneShadowed_width]; exact hreg.2.1,
      hreg.2.2.1, by rw [phoneShadowed_height]; exact hreg.2.2.2,
      by unfold Canvas.inB; rw [hcw, hch]; exact hcb⟩]
    rw [← hpix]
    rw [ha, blendBand_full, blendBand_full, blendBand_full, blendBand_full]
    rw [← ha]

/-- Counterexample to claim C3 as stated: in the end-to-end scenario
(100x200 raw capture, 200x400 device, phone_scale 0.8, corner radius 20,
shadow blur 8) the reported rectangle is (20, 136, 160, 320), but its
corner pixel (20, 136) is NOT covered by the subject — the rounded
corner mask is transparent there — while the interior pixel (100, 300)
is covered. -/
theorem subject_corner_not_covered_counterexample :
    phoneRect idPrims demoRaw 200 400 demoLayout = (20, 136, 160, 320) ∧
    ¬ coveredBySubject idPrims demoRaw 200 400 demoLayout 20 136 ∧
    coveredBySubject idPrims demoRaw 200 400 demoLayout 100 300 := by
  have hW : phoneW 200 demoLayout = 160 := by
    norm_num [phoneW, demoLayout]
    all_goals omega
  have hH : phoneH demoRaw 160 = 320 := by
    norm_num [phoneH, demoRaw, solidCanvas]
    all_goals omega
  have hCR : cornerRad demoLayout = 16 := by
    norm_num [cornerRad, demoLayout]
    all_goals omega
  have hSW : (phoneShadowed idPrims demoRaw 200 demoLayout).width = 192 := by
    rw [phoneShadowed_width, hW]
    norm_num [demoLayout]
  have hSH : (phoneShadowed idPrims demoRaw 200 demoLayout).height = 352 := by
    rw [phoneShadowed_height, hW, hH]
    norm_num [demoLayout]
  have hX : phoneX 200 idPrims demoRaw demoLayout = 4 := by
    unfold phoneX
    rw [hSW]
    decide
  have hY : phoneY 400 demoLayout = 120 := by
    norm_num [phoneY, demoLayout]
  have hB : demoLayout.shadow_blur = 8 := rfl
  have hin16 : (0 : Int) ≤ 16 ∧
      (16 : Int) < ((phoneW 200 demoLayout + demoLayout.shadow_blur * 4 : Nat) : Int) ∧
      (0 : Int) ≤ 16 ∧
      (16 : Int) <
        ((phoneH demoRaw (phoneW 200 demoLayout) +
          demoLayout.shadow_blur * 4 : Nat) : Int) := by
    rw [hW, hH, hB]
    norm_num
  have hin96 : (0 : Int) ≤ 96 ∧
      (96 : Int) < ((phoneW 200 demoLayout + demoLayout.shadow_blur * 4 : Nat) : Int) ∧
      (0 : Int) ≤ 180 ∧
      (180 : Int) <
        ((phoneH demoRaw (phoneW 200 demoLayout) +
          demoLayout.shadow_blur * 4 : Nat) : Int) := by
    rw [hW, hH, hB]
    norm_num
  refine ⟨?_, ?_, ?_⟩
  · unfold phoneRect
    rw [hX, hY, hW, hH, hB]
    norm_num
  · intro hcov
    rw [show coveredBySubject idPrims demoRaw 200 400 demoLayout 20 136 =
      (((0 : Int) ≤ 20 ∧ (20 : Int) < ((200 : Nat) : Int) ∧
          (0 : Int) ≤ 136 ∧ (136 : Int) < ((400 : Nat) : Int)) ∧
        (0 ≤ (20 : Int) - phoneX 200 idPrims demoRaw demoLayout ∧
          (20 : Int) - phoneX 200 idPrims demoRaw demoLayout <
            ((phoneShadowed idPrims demoRaw 200 demoLayout).width : Int) ∧
          0 ≤ (136 : Int) - phoneY 400 demoLayout ∧
          (136 : Int) - phoneY 400 demoLayout <
            ((phoneShadowed idPrims demoRaw 200 demoLayout).height : Int)) ∧
        ((phoneShadowed idPrims demoRaw 200 demoLayout).pix
          ((20 : Int) - phoneX 200 idPrims demoRaw demoLayout)
          ((136 : Int) - phoneY 400 demoLayout)).a = 255) from rfl] at hcov
    rw [hX, hY] at hcov
    norm_num at hcov
    have ha : ((phoneShadowed idPrims demoRaw 200 demoLayout).pix 16 16).a = 255 :=
      hcov.2
    have hmem :=
      (phoneShadowed_alpha idPrims demoRaw 200 demoLayout 16 16 hin16).1.mp ha
    rw [hW, hH, hCR, hB] at hmem
    norm_num at hmem
    exact absurd hmem (by decide)
  · rw [show coveredBySubject idPrims demoRaw 200 400 demoLayout 100 300 =
      (((0 : Int) ≤ 100 ∧ (100 : Int) < ((200 : Nat) : Int) ∧
          (0 : Int) ≤ 300 ∧ (300 : Int) < ((400 : Nat) : Int)) ∧
        (0 ≤ (100 : Int) - phoneX 200 idPrims demoRaw demoLayout ∧
          (100 : Int) - phoneX 200 idPrims demoRaw demoLayout <
            ((phoneShadowed idPrims demoRaw 200 demoLayout).width : Int) ∧
          0 ≤ (300 : Int) - phoneY 400 demoLayout ∧
          (300 : Int) - phoneY 400 demoLayout <
            ((phoneShadowed idPrims demoRaw 200 demoLayout).height : Int)) ∧
        ((phoneShadowed idPrims demoRaw 200 demoLayout).pix
          ((100 : Int) - phoneX 200 idPrims demoRaw demoLayout)
          ((300 : Int) - phoneY 400 demoLayout)).a = 255) from rfl]
    rw [hX, hY, hSW, hSH]
    norm_num
    have hmem : inRoundedRect (phoneW 200 demoLayout)
        (phoneH demoRaw (phoneW 200 demoLayout)) (cornerRad demoLayout)
        ((96 : Int) - (demoLayout.shadow_blur : Int) * 2)
        ((180 : Int) - (demoLayout.shadow_blur : Int) * 2) = true := by
      rw [hW, hH, hCR, hB]
      norm_num
      decide
    exact (phoneShadowed_alpha idPrims demoRaw 200 demoLayout 96 180 hin96).1.mpr hmem

/-- Witness for C3 (amended) at the end-to-end scenario, for the
interior pixel (100, 300) of the reported rectangle. -/
theorem subject_round_trip_placement_witness :
    (newCanvas 200 400).width = 200 ∧ (newCanvas 200 400).height = 400 ∧
    ((coveredBySubject idPrims demoRaw 200 400 demoLayout 100 300 ↔
      ((0 ≤ (100 : Int) ∧ (100 : Int) < ((200 : Nat) : Int) ∧
          0 ≤ (300 : Int) ∧ (300 : Int) < ((400 : Nat) : Int)) ∧
        (phoneRect idPrims demoRaw 200 400 demoLayout).1 ≤ 100 ∧
        (100 : Int) < (phoneRect idPrims demoRaw 200 400 demoLayout).1 +
          ((phoneRect idPrims demoRaw 200 400 demoLayout).2.2.1 : Int) ∧
        (phoneRect idPrims demoRaw 200 400 demoLayout).2.1 ≤ 300 ∧
        (300 : Int) < (phoneRect idPrims demoRaw 200 400 demoLayout).2.1 +
          ((phoneRect idPrims demoRaw 200 400 demoLayout).2.2.2 : Int) ∧
        inRoundedRect (phoneRect idPrims demoRaw 200 400 demoLayout).2.2.1
          (phoneRect idPrims demoRaw 200 400 demoLayout).2.2.2
          (cornerRad demoLayout)
          (100 - (phoneRect idPrims demoRaw 200 400 demoLayout).1)
          (300 - (phoneRect idPrims demoRaw 200 400 demoLayout).2.1) = true)) ∧
    (coveredBySubject idPrims demoRaw 200 400 demoLayout 100 300 →
      (pasteWithImgMask (newCanvas 200 400)
          (phoneShadowed idPrims demoRaw 200 demoLayout)
          (phoneX 200 idPrims demoRaw demoLayout)
          (phoneY 400 demoLayout)).pix 100 300 =
        (phoneRounded idPrims demoRaw 200 demoLayout).pix
          (100 - (phoneRect idPrims demoRaw 200 400 demoLayout).1)
          (300 - (phoneRect idPrims demoRaw 200 400 demoLayout).2.1))) :=
  ⟨rfl, rfl, subject_round_trip_placement idPrims demoRaw 200 400 demoLayout
    (newCanvas 200 400) 100 300 rfl rfl⟩

end Breach
